import Mathlib

/-!
C0VM: a shallow embedding of `execute` (src/c0vm.c)

The interpreter loop of `src/c0vm.c` is embedded as a step function
`step` on an explicit machine state (operand stack `S`, code `P`, program
counter `pc`, locals `V`, call stack, heap) and iterated by `run` / `execute`.

Conventions of the embedding.

* The operand stack is a list whose head is the top of the stack.
* C `int` is `Int` restricted to the 32-bit range; `+`, `-`, `*` and `<<`
  wrap modulo 2^32 (two's complement), `/` and `%` truncate toward zero.
* `size_t` and pointers are 64 bits wide; `pc + (int16_t)d - 2` is computed
  modulo 2^64 as in C.
* Pointers are byte addresses (`Nat`), `0` is `NULL`.  Memory is a flat,
  little-endian byte store.
* The helper library (`lib/*.h`) is not part of `src/`; what `execute` uses of
  it is modelled below and marked as such.  Allocation always succeeds
  (`xmalloc` / `xcalloc` abort the process otherwise); nothing is ever freed or
  handed out twice.
* Loads and stores of `step` are total on the flat store.  `step_defined`
  refines `step` for programs that own only the blocks they allocate: an access
  that is not null and lies outside these blocks is undefined.
* The contract macros `REQUIRES` / `ASSERT` of `lib/contracts.h` and the
  `#ifdef DEBUG` trace are compiled out (non-debug build).  Behaviour that C
  leaves undefined (popping an empty stack, reading outside `P`, `V` or a
  pool) is reported as `Outcome.image_error`.
-/

namespace C0VM

/-! ## Machine integers -/

/-- The constant `INT32_MIN` of `<limits.h>`. -/
def INT32_MIN : Int := -2147483648

/-- The constant `INT32_MAX` of `<limits.h>`. -/
def INT32_MAX : Int := 2147483647

/-- Reduction of a mathematical integer to the two's-complement `int` with the
same low 32 bits. -/
def wrap32 (x : Int) : Int := (x + 2147483648) % 4294967296 - 2147483648

/-- The 32-bit pattern of an `int`, read as an unsigned number. -/
def toU32 (x : Int) : Nat := (x % 4294967296).toNat

/-- Membership in the range of a C `int`. -/
def isInt32 (x : Int) : Prop := INT32_MIN ≤ x ∧ x ≤ INT32_MAX

instance (x : Int) : Decidable (isInt32 x) := by
  unfold isInt32; infer_instance

/-- The cast `(int16_t)x` of a value `x` in `0..65535`. -/
def int16_t (x : Nat) : Int :=
  if x % 65536 < 32768 then ((x % 65536 : Nat) : Int) else ((x % 65536 : Nat) : Int) - 65536

/-- The cast `(int8_t)x` of a byte. -/
def int8_t (x : Nat) : Int :=
  if x % 256 < 128 then ((x % 256 : Nat) : Int) else ((x % 256 : Nat) : Int) - 256

/-- Arithmetic on `size_t` (and on pointers): the sum modulo 2^64. -/
def size_add (p : Nat) (d : Int) : Nat := (((p : Int) + d) % 18446744073709551616).toNat

/-- C `a & b` on `int`. -/
def int_and (a b : Int) : Int := wrap32 ((toU32 a &&& toU32 b : Nat) : Int)

/-- C `a | b` on `int`. -/
def int_or (a b : Int) : Int := wrap32 ((toU32 a ||| toU32 b : Nat) : Int)

/-- C `a ^ b` on `int`. -/
def int_xor (a b : Int) : Int := wrap32 ((toU32 a ^^^ toU32 b : Nat) : Int)

/-- C `a << b` on `int` for `0 <= b < 32`: the bit pattern shifted left, the
bits above bit 31 dropped. -/
def int_shl (a : Int) (b : Nat) : Int := wrap32 ((toU32 a <<< b : Nat) : Int)

/-- C `a >> b` on `int` for `0 <= b < 32`: arithmetic shift. -/
def int_shr (a : Int) (b : Nat) : Int := a >>> b

/-! ## Values (lib/c0vm.h) -/

/-- Modelled from the spec: `c0_value` is declared in lib/c0vm.h, which is not
under src/.  The spec (3, 9) describes a word carrying either a 32-bit
signed integer or a pointer; it is taken as the two-variant sum, a pointer
being a byte address with `0` for `NULL`. -/
inductive c0_value where
  | int (i : Int)
  | ptr (p : Nat)
  deriving DecidableEq, Repr

/-- Modelled from the spec: `int2val` of lib/c0vm.h. -/
def int2val (i : Int) : c0_value := .int i

/-- Modelled from the spec: `ptr2val` of lib/c0vm.h. -/
def ptr2val (p : Nat) : c0_value := .ptr p

/-- Modelled from the spec: `val2int` of lib/c0vm.h; the conversion is total,
a pointer word is read through its low 32 bits. -/
def val2int : c0_value → Int
  | .int i => i
  | .ptr p => wrap32 p

/-- Modelled from the spec: `val2ptr` of lib/c0vm.h; the conversion is total,
an integer word is read as the address with the same bit pattern. -/
def val2ptr : c0_value → Nat
  | .ptr p => p
  | .int i => toU32 i

/-- Modelled from the spec: `val_equal` of lib/c0vm.h, bitwise identity for
integers and pointer identity for pointers. -/
def val_equal (a b : c0_value) : Bool := decide (a = b)

/-! ## Heap (lib/xalloc.h, the C memory) -/

/-- The C heap: a flat byte store and the highest address handed out so far.
Address `0` is `NULL` and is never handed out. -/
structure Heap where
  mem : Nat → Nat
  top : Nat

/-- The function `xmalloc` of lib/xalloc.h (not under src/): `malloc` that
never returns `NULL`.  The contents of the block are not initialised: they
are whatever the store holds at these addresses, a parameter of the model. -/
def xmalloc (h : Heap) (size : Nat) : Nat × Heap :=
  (h.top + 1, { h with top := h.top + max size 1 })

/-- The function `xcalloc` of lib/xalloc.h (not under src/): `calloc` that
never returns `NULL`; the `nobj * size` bytes of the block are zero. -/
def xcalloc (h : Heap) (nobj size : Nat) : Nat × Heap :=
  (h.top + 1,
   { mem := fun x => if h.top + 1 ≤ x ∧ x < h.top + 1 + nobj * size then 0 else h.mem x,
     top := h.top + max (nobj * size) 1 })

/-- Read of one byte. -/
def load8 (h : Heap) (a : Nat) : Nat := h.mem a % 256

/-- Write of one byte. -/
def store8 (h : Heap) (a : Nat) (v : Nat) : Heap :=
  { h with mem := fun x => if x = a then v % 256 else h.mem x }

/-- Little-endian read of `n` bytes starting at `a`. -/
def load_le (h : Heap) : Nat → Nat → Nat
  | _, 0 => 0
  | a, n + 1 => load8 h a + 256 * load_le h (a + 1) n

/-- Little-endian write of the low `n` bytes of `v` starting at `a`. -/
def store_le (h : Heap) : Nat → Nat → Nat → Heap
  | _, 0, _ => h
  | a, n + 1, v => store_le (store8 h a (v % 256)) (a + 1) n (v / 256)

/-- The read `*((int*)a)`. -/
def load_int (h : Heap) (a : Nat) : Int := wrap32 (load_le h a 4)

/-- The write `*((int*)a) = x`. -/
def store_int (h : Heap) (a : Nat) (x : Int) : Heap := store_le h a 4 (toU32 x)

/-- The read `*((void**)a)`. -/
def load_ptr (h : Heap) (a : Nat) : Nat := load_le h a 8

/-- The write `*((void**)a) = p`. -/
def store_ptr (h : Heap) (a : Nat) (p : Nat) : Heap := store_le h a 8 p

/-- The read `(int)(*((char*)a))`, `char` being signed. -/
def load_char (h : Heap) (a : Nat) : Int := int8_t (load8 h a)

/-- Modelled from the spec: `c0_array` is declared in lib/c0vm.h (not under
src/); the spec (3) gives the descriptor as
`count : int32, elt_size : uint8, elems : pointer`.  The fields lie at
byte offsets 0, 4 and 8 of a 16-byte record. -/
def sizeof_c0_array : Nat := 16

/-- The read `a->count`. -/
def c0_array_count (h : Heap) (a : Nat) : Int := load_int h a

/-- The read `a->elt_size`. -/
def c0_array_elt_size (h : Heap) (a : Nat) : Nat := load8 h (a + 4)

/-- The read `a->elems`. -/
def c0_array_elems (h : Heap) (a : Nat) : Nat := load_ptr h (a + 8)

/-! ## The program image (lib/c0vm.h) -/

/-- Modelled from the spec: `struct function_info` of lib/c0vm.h (4.3). -/
structure function_info where
  num_args : Nat
  num_vars : Nat
  code : List Nat
  deriving DecidableEq, Repr

/-- Modelled from the spec: `struct native_info` of lib/c0vm.h (4.3). -/
structure native_info where
  num_args : Nat
  function_table_index : Nat
  deriving DecidableEq, Repr

/-- Modelled from the spec: `struct bc0_file` of lib/c0vm.h (4.3).  The
string pool is given by the address of its first byte. -/
structure bc0_file where
  int_pool : List Int
  string_pool : Nat
  function_pool : List function_info
  native_pool : List native_info
  deriving DecidableEq, Repr

/-- Modelled from the spec: the type `native_fn` of lib/c0vm_c0ffi.h (6):
a native takes the argument array and returns one value; it may use the
heap. -/
abbrev native_fn := List c0_value → Heap → c0_value × Heap

/-- The byte `P[i]`, if `i` lies inside the array. -/
def ubyte_at (P : List Nat) (i : Nat) : Option Nat := (P[i]?).map (fun b => b % 256)

/-- The element `pool + i` of a pool, for a signed index `i`. -/
def pool_at {α : Type} (pool : List α) (i : Int) : Option α :=
  if i < 0 then none else pool[i.toNat]?

/-! ## Opcodes (lib/c0vm.h) -/

/-- The case labels of the `switch` in `execute`. -/
inductive opcode where
  | POP | DUP | SWAP | RETURN
  | IADD | ISUB | IMUL | IDIV | IREM | IAND | IOR | IXOR | ISHR | ISHL
  | BIPUSH | ILDC | ALDC | ACONST_NULL
  | VLOAD | VSTORE
  | ATHROW | ASSERT
  | NOP | IF_CMPEQ | IF_CMPNE | IF_ICMPLT | IF_ICMPGE | IF_ICMPGT | IF_ICMPLE | GOTO
  | INVOKESTATIC | INVOKENATIVE
  | NEW | IMLOAD | IMSTORE | AMLOAD | AMSTORE | CMLOAD | CMSTORE | AADDF
  | NEWARRAY | ARRAYLENGTH | AADDS
  | CHECKTAG | HASTAG | ADDTAG | ADDROF_STATIC | ADDROF_NATIVE | INVOKEDYNAMIC
  deriving DecidableEq, Repr

/-- Modelled from the spec: the byte values of the opcodes are declared in
lib/c0vm.h, which is not under src/; the spec names the opcodes (4.1) without
their values.  The values of the C0VM instruction set are used; the theorems
depend only on their being pairwise distinct. -/
def opcode.byte : opcode → Nat
  | .POP => 0x57 | .DUP => 0x59 | .SWAP => 0x5F | .RETURN => 0xB0
  | .IADD => 0x60 | .ISUB => 0x64 | .IMUL => 0x68 | .IDIV => 0x6C | .IREM => 0x70
  | .IAND => 0x7E | .IOR => 0x80 | .IXOR => 0x82 | .ISHR => 0x7A | .ISHL => 0x78
  | .BIPUSH => 0x10 | .ILDC => 0x13 | .ALDC => 0x14 | .ACONST_NULL => 0x01
  | .VLOAD => 0x15 | .VSTORE => 0x36
  | .ATHROW => 0xBF | .ASSERT => 0xCF
  | .NOP => 0x00 | .IF_CMPEQ => 0x9F | .IF_CMPNE => 0xA0 | .IF_ICMPLT => 0xA1
  | .IF_ICMPGE => 0xA2 | .IF_ICMPGT => 0xA3 | .IF_ICMPLE => 0xA4 | .GOTO => 0xA7
  | .INVOKESTATIC => 0xB8 | .INVOKENATIVE => 0xB7
  | .NEW => 0xBB | .IMLOAD => 0x2E | .IMSTORE => 0x4E | .AMLOAD => 0x2F | .AMSTORE => 0x4F
  | .CMLOAD => 0x34 | .CMSTORE => 0x55 | .AADDF => 0x62
  | .NEWARRAY => 0xBC | .ARRAYLENGTH => 0xBE | .AADDS => 0x63
  | .CHECKTAG => 0xC0 | .HASTAG => 0xC1 | .ADDTAG => 0xC2
  | .ADDROF_STATIC => 0x16 | .ADDROF_NATIVE => 0x17 | .INVOKEDYNAMIC => 0xB6

/-- All case labels, in the order of the source. -/
def opcode.all : List opcode :=
  [.POP, .DUP, .SWAP, .RETURN, .IADD, .ISUB, .IMUL, .IDIV, .IREM, .IAND, .IOR, .IXOR,
   .ISHR, .ISHL, .BIPUSH, .ILDC, .ALDC, .ACONST_NULL, .VLOAD, .VSTORE, .ATHROW, .ASSERT,
   .NOP, .IF_CMPEQ, .IF_CMPNE, .IF_ICMPLT, .IF_ICMPGE, .IF_ICMPGT, .IF_ICMPLE, .GOTO,
   .INVOKESTATIC, .INVOKENATIVE, .NEW, .IMLOAD, .IMSTORE, .AMLOAD, .AMSTORE, .CMLOAD,
   .CMSTORE, .AADDF, .NEWARRAY, .ARRAYLENGTH, .AADDS, .CHECKTAG, .HASTAG, .ADDTAG,
   .ADDROF_STATIC, .ADDROF_NATIVE, .INVOKEDYNAMIC]

/-- The selection `switch (P[pc])`: the case label whose value is the byte,
`none` for the `default` label. -/
def decode (b : Nat) : Option opcode := opcode.all.find? (fun o => o.byte == b)

/-! ## Machine state -/

/-- The record `struct frame_info` of the source: a frozen caller frame. -/
structure frame_info where
  S : List c0_value
  P : List Nat
  pc : Nat
  V : List c0_value
  deriving DecidableEq, Repr

/-- The variables of `execute` (`S`, `P`, `pc`, `V`, `callStack`) and the C heap. -/
structure State where
  S : List c0_value
  P : List Nat
  pc : Nat
  V : List c0_value
  callStack : List frame_info
  H : Heap

/-- The ways `execute` stops without returning: the four abort functions of
lib/c0vm_abort.h with their message (a literal, or the address of a C string)
and the `default` label of the switch. -/
inductive Abort where
  | c0_arith_error (msg : String)
  | c0_memory_error (msg : String)
  | c0_assertion_failure (msg : Nat)
  | c0_user_error (msg : Nat)
  | invalid_opcode (b : Nat)
  deriving DecidableEq, Repr

/-- The result of one pass through the loop body: the loop goes on in a new
state, `execute` returns a value, the process is aborted (in the state reached
when the abort function is called), or the behaviour is not defined by C. -/
inductive Outcome where
  | running (s : State)
  | returned (v : Int)
  | aborted (a : Abort) (s : State)
  | image_error

/-- The loop `for (int i = num-1; i >= 0; i--) V[i] = c0v_pop(S);` of
INVOKESTATIC and INVOKENATIVE, started with `num`. -/
def pop_args : Nat → List c0_value → List c0_value → Option (List c0_value × List c0_value)
  | 0, V, S => some (V, S)
  | i + 1, V, S =>
    match S with
    | [] => none
    | v :: S1 => if i < V.length then pop_args i (V.set i v) S1 else none

/-- The common body of the six conditional branches: `first` is popped
before `second`, and the branch is taken when `test first second` holds. -/
def cond_branch (s : State) (test : c0_value → c0_value → Bool) : Outcome :=
  match s.S with
  | first :: second :: S =>
    match ubyte_at s.P (s.pc + 1), ubyte_at s.P (s.pc + 2) with
    | some b1, some b2 =>
      if test first second then
        .running { s with S := S, pc := size_add (size_add (s.pc + 2) (int16_t ((b1 <<< 8) ||| b2))) (-2) }
      else
        .running { s with S := S, pc := s.pc + 3 }
    | _, _ => .image_error
  | _ => .image_error

/-! ## The loop body -/

/-- The body of the case `op` of the `switch`, run in state `s` whose `pc` is
the address of the opcode byte `b`. -/
def exec (bc0 : bc0_file) (native_function_table : Nat → Option native_fn)
    (b : Nat) (op : opcode) (s : State) : Outcome :=
  match op with
  | .POP =>
    match s.S with
    | _ :: S => .running { s with pc := s.pc + 1, S := S }
    | [] => .image_error
  | .DUP =>
    match s.S with
    | v :: S => .running { s with pc := s.pc + 1, S := v :: v :: S }
    | [] => .image_error
  | .SWAP =>
    match s.S with
    | first :: second :: S => .running { s with pc := s.pc + 1, S := second :: first :: S }
    | _ => .image_error
  | .RETURN =>
    match s.S with
    | retval :: _ =>
      match s.callStack with
      | [] => .returned (val2int retval)
      | popped :: callStack =>
        .running { s with S := retval :: popped.S, V := popped.V, pc := popped.pc,
                          P := popped.P, callStack := callStack }
    | [] => .image_error
  | .IADD =>
    match s.S with
    | first :: second :: S =>
      .running { s with pc := s.pc + 1,
                        S := int2val (wrap32 (val2int second + val2int first)) :: S }
    | _ => .image_error
  | .ISUB =>
    match s.S with
    | first :: second :: S =>
      .running { s with pc := s.pc + 1,
                        S := int2val (wrap32 (val2int second - val2int first)) :: S }
    | _ => .image_error
  | .IMUL =>
    match s.S with
    | first :: second :: S =>
      .running { s with pc := s.pc + 1,
                        S := int2val (wrap32 (val2int second * val2int first)) :: S }
    | _ => .image_error
  | .IDIV =>
    match s.S with
    | first :: second :: S =>
      if val2int first = 0 then
        .aborted (.c0_arith_error "Cannot divide by zero.") { s with pc := s.pc + 1, S := S }
      else if val2int second = INT32_MIN ∧ val2int first = -1 then
        .aborted (.c0_arith_error "Overflow error") { s with pc := s.pc + 1, S := S }
      else
        .running { s with pc := s.pc + 1,
                          S := int2val (Int.tdiv (val2int second) (val2int first)) :: S }
    | _ => .image_error
  | .IREM =>
    match s.S with
    | first :: second :: S =>
      if val2int first = 0 then
        .aborted (.c0_arith_error "Cannot divide by zero.") { s with pc := s.pc + 1, S := S }
      else if val2int second = INT32_MIN ∧ val2int first = -1 then
        .aborted (.c0_arith_error "Overflow error") { s with pc := s.pc + 1, S := S }
      else
        .running { s with pc := s.pc + 1,
                          S := int2val (Int.tmod (val2int second) (val2int first)) :: S }
    | _ => .image_error
  | .IAND =>
    match s.S with
    | first :: second :: S =>
      .running { s with pc := s.pc + 1,
                        S := int2val (int_and (val2int second) (val2int first)) :: S }
    | _ => .image_error
  | .IOR =>
    match s.S with
    | first :: second :: S =>
      .running { s with pc := s.pc + 1,
                        S := int2val (int_or (val2int second) (val2int first)) :: S }
    | _ => .image_error
  | .IXOR =>
    match s.S with
    | first :: second :: S =>
      .running { s with pc := s.pc + 1,
                        S := int2val (int_xor (val2int second) (val2int first)) :: S }
    | _ => .image_error
  | .ISHR =>
    match s.S with
    | first :: second :: S =>
      if val2int first < 0 ∨ val2int first ≥ 32 then
        .aborted (.c0_arith_error "This is not a possible shift")
          { s with pc := s.pc + 1, S := S }
      else
        .running { s with pc := s.pc + 1,
                          S := int2val (int_shr (val2int second) (val2int first).toNat) :: S }
    | _ => .image_error
  | .ISHL =>
    match s.S with
    | first :: second :: S =>
      if val2int first < 0 ∨ val2int first ≥ 32 then
        .aborted (.c0_arith_error "This is not a possible shift")
          { s with pc := s.pc + 1, S := S }
      else
        .running { s with pc := s.pc + 1,
                          S := int2val (int_shl (val2int second) (val2int first).toNat) :: S }
    | _ => .image_error
  | .BIPUSH =>
    match ubyte_at s.P (s.pc + 1) with
    | some b1 => .running { s with pc := s.pc + 2, S := int2val (int8_t b1) :: s.S }
    | none => .image_error
  | .ILDC =>
    match ubyte_at s.P (s.pc + 1), ubyte_at s.P (s.pc + 2) with
    | some b1, some b2 =>
      match bc0.int_pool[(b1 <<< 8) ||| b2]? with
      | some ret => .running { s with pc := s.pc + 3, S := int2val ret :: s.S }
      | none => .image_error
    | _, _ => .image_error
  | .ALDC =>
    match ubyte_at s.P (s.pc + 1), ubyte_at s.P (s.pc + 2) with
    | some b1, some b2 =>
      .running { s with pc := s.pc + 3,
                        S := ptr2val (bc0.string_pool + ((b1 <<< 8) ||| b2)) :: s.S }
    | _, _ => .image_error
  | .ACONST_NULL => .running { s with pc := s.pc + 1, S := ptr2val 0 :: s.S }
  | .VLOAD =>
    match ubyte_at s.P (s.pc + 1) with
    | some i =>
      match s.V[i]? with
      | some v => .running { s with pc := s.pc + 2, S := v :: s.S }
      | none => .image_error
    | none => .image_error
  | .VSTORE =>
    match ubyte_at s.P (s.pc + 1), s.S with
    | some i, v :: S =>
      if i < s.V.length then .running { s with pc := s.pc + 2, S := S, V := s.V.set i v }
      else .image_error
    | _, _ => .image_error
  | .ATHROW =>
    match s.S with
    | v :: S => .aborted (.c0_user_error (val2ptr v)) { s with pc := s.pc + 1, S := S }
    | [] => .image_error
  | .ASSERT =>
    match s.S with
    | first :: second :: S =>
      if val2int second = 0 then
        .aborted (.c0_assertion_failure (val2ptr first)) { s with pc := s.pc + 1, S := S }
      else .running { s with pc := s.pc + 1, S := S }
    | _ => .image_error
  | .NOP => .running { s with pc := s.pc + 1 }
  | .IF_CMPEQ => cond_branch s (fun first second => val_equal first second)
  | .IF_CMPNE => cond_branch s (fun first second => !val_equal first second)
  | .IF_ICMPLT => cond_branch s (fun first second => decide (val2int second < val2int first))
  | .IF_ICMPGE => cond_branch s (fun first second => decide (val2int second ≥ val2int first))
  | .IF_ICMPGT => cond_branch s (fun first second => decide (val2int second > val2int first))
  | .IF_ICMPLE => cond_branch s (fun first second => decide (val2int second ≤ val2int first))
  | .GOTO =>
    match ubyte_at s.P (s.pc + 1), ubyte_at s.P (s.pc + 2) with
    | some b1, some b2 =>
      .running { s with pc := size_add (size_add (s.pc + 2) (int16_t ((b1 <<< 8) ||| b2))) (-2) }
    | _, _ => .image_error
  | .INVOKESTATIC =>
    match ubyte_at s.P (s.pc + 1), ubyte_at s.P (s.pc + 2) with
    | some b1, some b2 =>
      match pool_at bc0.function_pool (int16_t (((b1 <<< 8) % 65536) ||| b2)) with
      | some v =>
        -- the frame holds the operand stack by reference: the arguments popped
        -- below are gone from the frozen stack as well
        match pop_args v.num_args (List.replicate v.num_vars (int2val 0)) s.S with
        | some (V, S) =>
          .running { s with S := [], P := v.code, pc := 0, V := V,
                            callStack := { S := S, P := s.P, pc := s.pc + 3, V := s.V }
                                           :: s.callStack }
        | none => .image_error
      | none => .image_error
    | _, _ => .image_error
  | .INVOKENATIVE =>
    match ubyte_at s.P (s.pc + 1), ubyte_at s.P (s.pc + 2) with
    | some b1, some b2 =>
      match pool_at bc0.native_pool (int16_t (((b1 <<< 8) % 65536) ||| b2)) with
      | some n =>
        -- every entry of the fresh array is written before the call, so its
        -- initial contents are never read
        match pop_args n.num_args (List.replicate n.num_args (int2val 0)) s.S with
        | some (storage, S) =>
          match native_function_table n.function_table_index with
          | some nativeW =>
            .running { s with pc := s.pc + 3, S := (nativeW storage s.H).1 :: S,
                              H := (nativeW storage s.H).2 }
          | none => .image_error
        | none => .image_error
      | none => .image_error
    | _, _ => .image_error
  | .NEW =>
    match ubyte_at s.P (s.pc + 1) with
    | some sz =>
      .running { s with pc := s.pc + 2, S := ptr2val (xmalloc s.H sz).1 :: s.S,
                        H := (xmalloc s.H sz).2 }
    | none => .image_error
  | .IMLOAD =>
    match s.S with
    | v :: S =>
      if val2ptr v = 0 then
        .aborted (.c0_memory_error "Null memory error") { s with pc := s.pc + 1, S := S }
      else .running { s with pc := s.pc + 1, S := int2val (load_int s.H (val2ptr v)) :: S }
    | [] => .image_error
  | .IMSTORE =>
    match s.S with
    | x :: a :: S =>
      if val2ptr a = 0 then
        .aborted (.c0_memory_error "Null memory error") { s with pc := s.pc + 1, S := S }
      else .running { s with pc := s.pc + 1, S := S,
                             H := store_int s.H (val2ptr a) (val2int x) }
    | _ => .image_error
  | .AMLOAD =>
    match s.S with
    | v :: S =>
      if val2ptr v = 0 then
        .aborted (.c0_memory_error "Null memory error") { s with pc := s.pc + 1, S := S }
      else .running { s with pc := s.pc + 1, S := ptr2val (load_ptr s.H (val2ptr v)) :: S }
    | [] => .image_error
  | .AMSTORE =>
    match s.S with
    | address1 :: address2 :: S =>
      if val2ptr address2 = 0 then
        .aborted (.c0_memory_error "Null memory error") { s with pc := s.pc + 1, S := S }
      else .running { s with pc := s.pc + 1, S := S,
                             H := store_ptr s.H (val2ptr address2) (val2ptr address1) }
    | _ => .image_error
  | .CMLOAD =>
    match s.S with
    | v :: S =>
      if val2ptr v = 0 then
        .aborted (.c0_memory_error "Null memory error") { s with pc := s.pc + 1, S := S }
      else .running { s with pc := s.pc + 1, S := int2val (load_char s.H (val2ptr v)) :: S }
    | [] => .image_error
  | .CMSTORE =>
    match s.S with
    | x :: a :: S =>
      if val2ptr a = 0 then
        .aborted (.c0_memory_error "Null memory error") { s with pc := s.pc + 1, S := S }
      else .running { s with pc := s.pc + 1, S := S,
                             H := store8 s.H (val2ptr a) (toU32 (val2int x) &&& 0x7f) }
    | _ => .image_error
  | .AADDF =>
    match ubyte_at s.P (s.pc + 1), s.S with
    | some f, v :: S =>
      if val2ptr v = 0 then
        .aborted (.c0_memory_error "Null memory error") { s with pc := s.pc + 1, S := S }
      else .running { s with pc := s.pc + 2, S := ptr2val (size_add (val2ptr v) f) :: S }
    | _, _ => .image_error
  | .NEWARRAY =>
    match ubyte_at s.P (s.pc + 1), s.S with
    | some sz, v :: S =>
      if val2int v < 0 then
        .aborted (.c0_memory_error "Abort execution -> Invalid negative!")
          { s with pc := s.pc + 2, S := S }
      else
        let array := (xcalloc s.H 1 sizeof_c0_array).1
        let h1 := (xcalloc s.H 1 sizeof_c0_array).2
        let h2 := store_int h1 array (val2int v)
        let h3 := store8 h2 (array + 4) sz
        let elems := (xcalloc h3 (val2int v).toNat (c0_array_elt_size h3 array)).1
        let h4 := (xcalloc h3 (val2int v).toNat (c0_array_elt_size h3 array)).2
        .running { s with pc := s.pc + 2, S := ptr2val array :: S,
                          H := store_ptr h4 (array + 8) elems }
    | _, _ => .image_error
  | .ARRAYLENGTH =>
    match s.S with
    | v :: S =>
      if val2ptr v = 0 then
        .aborted (.c0_memory_error "Null memory error") { s with pc := s.pc + 1, S := S }
      else .running { s with pc := s.pc + 1,
                             S := int2val (c0_array_count s.H (val2ptr v)) :: S }
    | [] => .image_error
  | .AADDS =>
    match s.S with
    | vi :: va :: S =>
      if val2ptr va = 0 then
        .aborted (.c0_memory_error "Null memory error") { s with pc := s.pc + 1, S := S }
      else if val2int vi < 0 ∨ val2int vi ≥ c0_array_count s.H (val2ptr va) then
        .aborted (.c0_memory_error "Not a valid index") { s with pc := s.pc + 1, S := S }
      else
        .running { s with pc := s.pc + 1,
                          S := ptr2val (size_add (c0_array_elems s.H (val2ptr va))
                                 (wrap32 ((c0_array_elt_size s.H (val2ptr va) : Int) * val2int vi)))
                               :: S }
    | _ => .image_error
  | .CHECKTAG => .aborted (.invalid_opcode b) s
  | .HASTAG => .aborted (.invalid_opcode b) s
  | .ADDTAG => .aborted (.invalid_opcode b) s
  | .ADDROF_STATIC => .aborted (.invalid_opcode b) s
  | .ADDROF_NATIVE => .aborted (.invalid_opcode b) s
  | .INVOKEDYNAMIC => .aborted (.invalid_opcode b) s

/-- One pass through the body of `while (true)`: fetch `P[pc]` and dispatch. -/
def step (bc0 : bc0_file) (native_function_table : Nat → Option native_fn)
    (s : State) : Outcome :=
  match ubyte_at s.P s.pc with
  | none => .image_error
  | some b =>
    match decode b with
    | some op => exec bc0 native_function_table b op s
    | none => .aborted (.invalid_opcode b) s

/-- The loop `while (true)`, cut after `fuel` passes. -/
def run (bc0 : bc0_file) (native_function_table : Nat → Option native_fn) :
    Nat → State → Outcome
  | 0, s => .running s
  | fuel + 1, s =>
    match step bc0 native_function_table s with
    | .running s1 => run bc0 native_function_table fuel s1
    | o => o

/-- The state set up by the declarations at the head of `execute`.  The locals
of function 0 come from `xmalloc` and are not initialised: their contents
`junk` are a parameter. -/
def init (bc0 : bc0_file) (H : Heap) (junk : Nat → c0_value) : Option State :=
  match bc0.function_pool with
  | [] => none
  | f :: _ =>
    some { S := [], P := f.code, pc := 0, V := (List.range f.num_vars).map junk,
           callStack := [], H := H }

/-- The function `execute`, its loop cut after `fuel` passes. -/
def execute (bc0 : bc0_file) (native_function_table : Nat → Option native_fn)
    (fuel : Nat) (H : Heap) (junk : Nat → c0_value) : Outcome :=
  match init bc0 H junk with
  | none => .image_error
  | some s => run bc0 native_function_table fuel s

/-- The value `execute` returns, if it does. -/
def Outcome.exit_value : Outcome → Option Int
  | .returned v => some v
  | _ => none

/-- The state an outcome carries, if it has one. -/
def Outcome.state : Outcome → Option State
  | .running s => some s
  | .aborted _ s => some s
  | _ => none

/-- The abort an outcome carries, if it is one. -/
def Outcome.abort : Outcome → Option Abort
  | .aborted a _ => some a
  | _ => none

/-- An outcome is an arithmetic trap (`c0_arith_error`). -/
def Outcome.is_arith_trap : Outcome → Bool
  | .aborted (.c0_arith_error _) _ => true
  | _ => false

/-- An outcome is a memory trap (`c0_memory_error`). -/
def Outcome.is_memory_trap : Outcome → Bool
  | .aborted (.c0_memory_error _) _ => true
  | _ => false

/-- Assembly of a program: the bytes of an opcode followed by its operands. -/
def ins (op : opcode) (operands : List Nat) : List Nat := op.byte :: operands

/-- An outcome that ends the loop: anything but `running`. -/
def Outcome.terminal : Outcome → Bool
  | .running _ => false
  | _ => true

/-! ## Scenario programs -/

/-- A heap whose store holds only zero bytes. -/
def zero_heap : Heap := { mem := fun _ => 0, top := 0 }

/-- A native function table without entries. -/
def no_natives : Nat → Option native_fn := fun _ => none

/-- Junk contents for the locals of function 0. -/
def zero_junk : Nat → c0_value := fun _ => .int 0

/-- The code of scenario S2 as the spec writes it, with displacement `+5`. -/
def S2_code : List Nat :=
  ins .BIPUSH [1] ++ ins .BIPUSH [1] ++ ins .IF_CMPEQ [0, 5] ++ ins .BIPUSH [0] ++
  ins .RETURN [] ++ ins .BIPUSH [42] ++ ins .RETURN []

/-- The image of scenario S2. -/
def S2_bc0 : bc0_file :=
  { int_pool := [], string_pool := 0, native_pool := [],
    function_pool := [{ num_args := 0, num_vars := 0, code := S2_code }] }

/-- The state of scenario S2 when `IF_CMPEQ` at address 4 is fetched. -/
def S2_at_branch : State :=
  { S := [.int 1, .int 1], P := S2_code, pc := 4, V := [], callStack := [], H := zero_heap }

/-- The code of scenario S2 with displacement `+6`, the distance from the
opcode `IF_CMPEQ` at address 4 to `BIPUSH 42` at address 10. -/
def S2_code_rel_opcode : List Nat :=
  ins .BIPUSH [1] ++ ins .BIPUSH [1] ++ ins .IF_CMPEQ [0, 6] ++ ins .BIPUSH [0] ++
  ins .RETURN [] ++ ins .BIPUSH [42] ++ ins .RETURN []

/-- The image of scenario S2 with displacement `+6`. -/
def S2_bc0_rel_opcode : bc0_file :=
  { int_pool := [], string_pool := 0, native_pool := [],
    function_pool := [{ num_args := 0, num_vars := 0, code := S2_code_rel_opcode }] }

/-- The code of function 0 of scenario S3. -/
def S3_code0 : List Nat :=
  ins .BIPUSH [10] ++ ins .VSTORE [0] ++ ins .VLOAD [0] ++ ins .INVOKESTATIC [0, 1] ++
  ins .RETURN []

/-- The code of function 1 of scenario S3. -/
def S3_code1 : List Nat :=
  ins .VLOAD [0] ++ ins .BIPUSH [1] ++ ins .IADD [] ++ ins .RETURN []

/-- The image of scenario S3. -/
def S3_bc0 : bc0_file :=
  { int_pool := [], string_pool := 0, native_pool := [],
    function_pool := [{ num_args := 0, num_vars := 1, code := S3_code0 },
                      { num_args := 1, num_vars := 1, code := S3_code1 }] }

/-- The state of scenario S3 when `INVOKESTATIC 1` at address 6 is fetched. -/
def S3_at_call : State :=
  { S := [.int 10], P := S3_code0, pc := 6, V := [.int 10], callStack := [], H := zero_heap }

/-- The state of scenario S3 when the callee fetches `RETURN` at address 5. -/
def S3_at_return : State :=
  { S := [.int 11], P := S3_code1, pc := 5, V := [.int 10],
    callStack := [{ S := [], P := S3_code0, pc := 9, V := [.int 10] }], H := zero_heap }

/-- The code of scenario S4. -/
def S4_code : List Nat :=
  ins .BIPUSH [1] ++ ins .BIPUSH [0] ++ ins .IDIV [] ++ ins .RETURN []

/-- The image of scenario S4. -/
def S4_bc0 : bc0_file :=
  { int_pool := [], string_pool := 0, native_pool := [],
    function_pool := [{ num_args := 0, num_vars := 0, code := S4_code }] }

/-- The state at address 0 of the code `P` with operand stack `S`, no locals,
an empty call stack and the zero heap. -/
def at_start (P : List Nat) (S : List c0_value) : State :=
  { S := S, P := P, pc := 0, V := [], callStack := [], H := zero_heap }

/-- An image without pools, for single-step examples. -/
def empty_bc0 : bc0_file :=
  { int_pool := [], string_pool := 0, native_pool := [], function_pool := [] }

/-- The code of scenario S1. -/
def S1_code : List Nat :=
  ins .BIPUSH [7] ++ ins .BIPUSH [5] ++ ins .ISUB [] ++ ins .RETURN []

/-- The image of scenario S1. -/
def S1_bc0 : bc0_file :=
  { int_pool := [], string_pool := 0, native_pool := [],
    function_pool := [{ num_args := 0, num_vars := 0, code := S1_code }] }

/-- The heap NEWARRAY leaves behind when it pops the count `n` in heap `H` with
element size `sz`: the statements of the case from `xcalloc(1, sizeof(c0_array))`
to `array->elems = xcalloc(n, array->elt_size)`. -/
def newarray_heap (H : Heap) (n : Int) (sz : Nat) : Heap :=
  let array := (xcalloc H 1 sizeof_c0_array).1
  let h1 := (xcalloc H 1 sizeof_c0_array).2
  let h2 := store_int h1 array n
  let h3 := store8 h2 (array + 4) sz
  let elems := (xcalloc h3 n.toNat (c0_array_elt_size h3 array)).1
  let h4 := (xcalloc h3 n.toNat (c0_array_elt_size h3 array)).2
  store_ptr h4 (array + 8) elems

/-- The code of scenario S5. -/
def S5_code : List Nat :=
  ins .BIPUSH [3] ++ ins .NEWARRAY [4] ++ ins .BIPUSH [3] ++ ins .AADDS [] ++ ins .RETURN []

/-- The image of scenario S5. -/
def S5_bc0 : bc0_file :=
  { int_pool := [], string_pool := 0, native_pool := [],
    function_pool := [{ num_args := 0, num_vars := 0, code := S5_code }] }

/-- The code of scenario S6. -/
def S6_code : List Nat :=
  ins .ACONST_NULL [] ++ ins .IMLOAD [] ++ ins .RETURN []

/-- The image of scenario S6. -/
def S6_bc0 : bc0_file :=
  { int_pool := [], string_pool := 0, native_pool := [],
    function_pool := [{ num_args := 0, num_vars := 0, code := S6_code }] }

/-- A heap whose store holds the byte `0xFF` everywhere: memory that was used
before and is handed out again by `malloc`. -/
def dirty_heap : Heap := { mem := fun _ => 255, top := 0 }

/-- The image of the program `NEW 4; load; RETURN` for a load opcode. -/
def NEW_load_bc0 (load : opcode) : bc0_file :=
  { int_pool := [], string_pool := 0, native_pool := [],
    function_pool := [{ num_args := 0, num_vars := 0,
                        code := ins .NEW [4] ++ ins load [] ++ ins .RETURN [] }] }

/-- The image of the program `NEW 8; AMLOAD; RETURN`: the block has the size of
the pointer that AMLOAD reads. -/
def NEW8_AMLOAD_bc0 : bc0_file :=
  { int_pool := [], string_pool := 0, native_pool := [],
    function_pool := [{ num_args := 0, num_vars := 0,
                        code := ins .NEW [8] ++ ins .AMLOAD [] ++ ins .RETURN [] }] }

/-- A native function for examples: the first argument plus one. -/
def native_succ : native_fn := fun args H =>
  match args with
  | v :: _ => (int2val (wrap32 (val2int v + 1)), H)
  | [] => (int2val 0, H)

/-- A native function table whose entry 0 is `native_succ`. -/
def succ_natives : Nat → Option native_fn := fun i => if i = 0 then some native_succ else none

/-- An image whose native pool has one entry: one argument, table index 0. -/
def native_bc0 : bc0_file :=
  { int_pool := [], string_pool := 0, function_pool := [],
    native_pool := [{ num_args := 1, function_table_index := 0 }] }

/-- The case labels of the C1 extension, which fall through to `default`. -/
def opcode.reserved : List opcode :=
  [.CHECKTAG, .HASTAG, .ADDTAG, .ADDROF_STATIC, .ADDROF_NATIVE, .INVOKEDYNAMIC]

/-- Three NOPs followed, at address 3, by a GOTO with displacement `-3`
(operand bytes `0xFF 0xFD`). -/
def goto_back3_code : List Nat :=
  ins .NOP [] ++ ins .NOP [] ++ ins .NOP [] ++ ins .GOTO [0xFF, 0xFD]

/-- The state that fetches the GOTO of `goto_back3_code` at address 3. -/
def goto_back3_state : State :=
  { S := [], P := goto_back3_code, pc := 3, V := [], callStack := [], H := zero_heap }

/-- The state that fetches a GOTO with displacement 0 at address 0. -/
def goto_self_state : State := at_start (ins .GOTO [0, 0]) [int2val 1]

/-- A function pool of 32769 entries: 32768 copies of a function returning 1,
then, at index 32768, a function returning 2. -/
def wide_function_pool : List function_info :=
  List.replicate 32768 { num_args := 0, num_vars := 0, code := ins .BIPUSH [1] ++ ins .RETURN [] }
    ++ [{ num_args := 0, num_vars := 0, code := ins .BIPUSH [2] ++ ins .RETURN [] }]

/-- A native pool of 32769 entries, the last one with table index 7. -/
def wide_native_pool : List native_info :=
  List.replicate 32768 { num_args := 0, function_table_index := 0 }
    ++ [{ num_args := 0, function_table_index := 7 }]

/-- An image with the two wide pools. -/
def wide_bc0 : bc0_file :=
  { int_pool := [], string_pool := 0, function_pool := wide_function_pool,
    native_pool := wide_native_pool }

/-- The state that fetches `NEWARRAY 128` with the count 33554433 on the operand
stack, on the zero heap. -/
def big_newarray_state : State :=
  at_start (ins .NEWARRAY [128]) [int2val 33554433]

/-- The heap NEWARRAY leaves in `big_newarray_state`: an array of 33554433
elements of 128 bytes (4 GiB and 128 bytes), its descriptor at address 1 and
its elements from address 17 on. -/
def big_array_heap : Heap := newarray_heap zero_heap 33554433 128

/-- The state that fetches AADDS with the descriptor at address 1 and the index
`i` on the operand stack, in the heap `big_array_heap`. -/
def big_aadds_state (i : Int) : State :=
  { S := [int2val i, ptr2val 1], P := ins .AADDS [], pc := 0, V := [], callStack := [],
    H := big_array_heap }

/-- The code of scenario S7 as the spec writes it: `NEW` is followed directly by
`DUP`. -/
def S7_code : List Nat :=
  ins .BIPUSH [8] ++ ins .NEW [] ++ ins .DUP [] ++ ins .BIPUSH [5] ++ ins .SWAP [] ++
  ins .AADDF [4] ++ ins .IMSTORE [] ++ ins .AADDF [4] ++ ins .IMLOAD [] ++ ins .RETURN []

/-- The image of scenario S7 as the spec writes it. -/
def S7_bc0 : bc0_file :=
  { int_pool := [], string_pool := 0, native_pool := [],
    function_pool := [{ num_args := 0, num_vars := 0, code := S7_code }] }

/-- The code of scenario S7 with the size 8 given to `NEW` as its operand byte,
the rest as the spec writes it. -/
def S7_code_new8 : List Nat :=
  ins .BIPUSH [8] ++ ins .NEW [8] ++ ins .DUP [] ++ ins .BIPUSH [5] ++ ins .SWAP [] ++
  ins .AADDF [4] ++ ins .IMSTORE [] ++ ins .AADDF [4] ++ ins .IMLOAD [] ++ ins .RETURN []

/-- The image of scenario S7 with `NEW 8`. -/
def S7_bc0_new8 : bc0_file :=
  { int_pool := [], string_pool := 0, native_pool := [],
    function_pool := [{ num_args := 0, num_vars := 0, code := S7_code_new8 }] }

/-- A heap of zero bytes in which the addresses up to 4096 are in use. -/
def used_heap : Heap := { mem := fun _ => 0, top := 4096 }

/-- The code of scenario S7 in the operand order of the source: `NEW` takes the
size 8 as its operand byte, and a second `SWAP` brings the value 5 on top of the
address before `IMSTORE`. -/
def S7_code_amended : List Nat :=
  ins .NEW [8] ++ ins .DUP [] ++ ins .BIPUSH [5] ++ ins .SWAP [] ++ ins .AADDF [4] ++
  ins .SWAP [] ++ ins .IMSTORE [] ++ ins .AADDF [4] ++ ins .IMLOAD [] ++ ins .RETURN []

/-- The image of scenario S7 in the operand order of the source. -/
def S7_bc0_amended : bc0_file :=
  { int_pool := [], string_pool := 0, native_pool := [],
    function_pool := [{ num_args := 0, num_vars := 0, code := S7_code_amended }] }

/-- A state that fetches `VSTORE 1` with 7 on the operand stack and three locals. -/
def vstore_state : State :=
  { S := [int2val 7, int2val 9], P := ins .VSTORE [1], pc := 0,
    V := [int2val 10, int2val 11, int2val 12],
    callStack := [{ S := [], P := [], pc := 4, V := [] }], H := zero_heap }

/-- The state that follows `vstore_state`. -/
def vstore_next : State :=
  { S := [int2val 9], P := ins .VSTORE [1], pc := 2,
    V := [int2val 10, int2val 7, int2val 12],
    callStack := [{ S := [], P := [], pc := 4, V := [] }], H := zero_heap }

/-! ## Accesses outside allocated memory -/

/-- The address through which the opcode fetched in `s` reads or writes memory
once its null test has passed, with the size in bytes of the object it expects
there, as the cases of the source spell the access: `*((int*)a)` in IMLOAD and
IMSTORE, `*address` and `*address2` in AMLOAD and AMSTORE, `*((char*)a)` in
CMLOAD and CMSTORE, the descriptor `a->count`, `a->elt_size`, `a->elems` in
ARRAYLENGTH and AADDS.  For the stores the address is the value popped second.
No other case dereferences an operand. -/
def mem_access (s : State) : Option (Nat × Nat) :=
  match (ubyte_at s.P s.pc).bind decode, s.S with
  | some .IMLOAD, v :: _ => some (val2ptr v, 4)
  | some .IMSTORE, _ :: a :: _ => some (val2ptr a, 4)
  | some .AMLOAD, v :: _ => some (val2ptr v, 8)
  | some .AMSTORE, _ :: a :: _ => some (val2ptr a, 8)
  | some .CMLOAD, v :: _ => some (val2ptr v, 1)
  | some .CMSTORE, _ :: a :: _ => some (val2ptr a, 1)
  | some .ARRAYLENGTH, v :: _ => some (val2ptr v, sizeof_c0_array)
  | some .AADDS, _ :: a :: _ => some (val2ptr a, sizeof_c0_array)
  | _, _ => none

/-- The `n` bytes at address `a` lie in the memory that `xmalloc` and `xcalloc`
handed out between the heap `H0` and the heap `H`. -/
def in_allocated (H0 H : Heap) (a n : Nat) : Bool :=
  decide (H0.top < a ∧ a + n ≤ H.top + 1)

/-- One pass through the loop body for a program whose only objects are the
blocks it allocated itself since the heap `H0` (no string pool, no natives).
C leaves an access through a pointer that is not null and points into no
object undefined (in a run the process is killed by the fault, or reads and
writes foreign memory): like the other undefined behaviour it is reported as
`Outcome.image_error`.  In every other state the pass is `step`. -/
def step_defined (bc0 : bc0_file) (native_function_table : Nat → Option native_fn)
    (H0 : Heap) (s : State) : Outcome :=
  match mem_access s with
  | some (a, n) =>
    if a = 0 ∨ in_allocated H0 s.H a n = true then step bc0 native_function_table s
    else .image_error
  | none => step bc0 native_function_table s

/-- The loop `while (true)` with `step_defined`, cut after `fuel` passes. -/
def run_defined (bc0 : bc0_file) (native_function_table : Nat → Option native_fn)
    (H0 : Heap) : Nat → State → Outcome
  | 0, s => .running s
  | fuel + 1, s =>
    match step_defined bc0 native_function_table H0 s with
    | .running s1 => run_defined bc0 native_function_table H0 fuel s1
    | o => o

/-- The function `execute` with `step_defined`, started on the heap `H`. -/
def execute_defined (bc0 : bc0_file) (native_function_table : Nat → Option native_fn)
    (fuel : Nat) (H : Heap) (junk : Nat → c0_value) : Outcome :=
  match init bc0 H junk with
  | none => .image_error
  | some s => run_defined bc0 native_function_table H fuel s

/-- An outcome is undefined behaviour. -/
def Outcome.is_image_error : Outcome → Bool
  | .image_error => true
  | _ => false

/-! # Theorems -/

/-! ## Basic facts -/

theorem shl8_or (b1 b2 : Nat) (h : b2 < 256) : (b1 <<< 8) ||| b2 = 256 * b1 + b2 := by
  rw [Nat.shiftLeft_eq, Nat.mul_comm]
  exact (@Nat.mul_add_lt_is_or 8 b2 (by simpa using h) b1).symm

theorem ubyte_at_lt {P : List Nat} {i b : Nat} (h : ubyte_at P i = some b) : b < 256 := by
  unfold ubyte_at at h
  cases hg : P[i]? with
  | none => simp [hg] at h
  | some x =>
    simp [hg] at h
    omega

theorem branch_pc (p : Nat) (d : Int) : size_add (size_add (p + 2) d) (-2) = size_add p d := by
  unfold size_add
  omega

theorem size_add_nat (p k : Nat) (h : p + k < 18446744073709551616) :
    size_add p (k : Int) = p + k := by
  unfold size_add
  omega

theorem size_add_of_range (p : Nat) (d : Int) (h0 : 0 ≤ (p : Int) + d)
    (h1 : (p : Int) + d < 18446744073709551616) : (size_add p d : Int) = p + d := by
  unfold size_add
  omega

theorem decode_byte (op : opcode) : decode op.byte = some op := by
  cases op <;> rfl

theorem step_eq_exec (bc0 : bc0_file) (nft : Nat → Option native_fn) (s : State) (op : opcode)
    (h : ubyte_at s.P s.pc = some op.byte) : step bc0 nft s = exec bc0 nft op.byte op s := by
  unfold step
  rw [h]
  simp only [decode_byte]

theorem run_terminal (bc0 : bc0_file) (nft : Nat → Option native_fn) (n k : Nat) :
    ∀ s : State, (run bc0 nft n s).terminal = true → run bc0 nft (n + k) s = run bc0 nft n s := by
  induction n with
  | zero => intro s h; simp [run, Outcome.terminal] at h
  | succ n ih =>
    intro s h
    have e : n + 1 + k = (n + k) + 1 := by omega
    rw [e]
    unfold run at h ⊢
    cases hs : step bc0 nft s with
    | running s1 => rw [hs] at h; exact ih s1 h
    | returned v => rfl
    | aborted a t => rfl
    | image_error => rfl

theorem run_of_le (bc0 : bc0_file) (nft : Nat → Option native_fn) (n m : Nat) (s : State)
    (hnm : n ≤ m) (h : (run bc0 nft n s).terminal = true) :
    run bc0 nft m s = run bc0 nft n s := by
  obtain ⟨k, rfl⟩ := Nat.exists_eq_add_of_le hnm
  exact run_terminal bc0 nft n k s h

theorem run_step (bc0 : bc0_file) (nft : Nat → Option native_fn) (s s1 : State) (n : Nat)
    (h : step bc0 nft s = .running s1) : run bc0 nft (n + 1) s = run bc0 nft n s1 := by
  simp only [run, h]

theorem run_stop (bc0 : bc0_file) (nft : Nat → Option native_fn) (s : State) (o : Outcome)
    (n : Nat) (h : step bc0 nft s = o) (ht : o.terminal = true) :
    run bc0 nft (n + 1) s = o := by
  simp only [run, h]
  cases o with
  | running s1 => cases ht
  | returned v => rfl
  | aborted a t => rfl
  | image_error => rfl

theorem execute_eq_run (bc0 : bc0_file) (nft : Nat → Option native_fn) (fuel : Nat) (H : Heap)
    (junk : Nat → c0_value) (s0 : State) (h : init bc0 H junk = some s0) :
    execute bc0 nft fuel H junk = run bc0 nft fuel s0 := by
  simp only [execute, h]

theorem execute_of_le (bc0 : bc0_file) (nft : Nat → Option native_fn) (H : Heap)
    (junk : Nat → c0_value) (n m : Nat) (hnm : n ≤ m)
    (h : (execute bc0 nft n H junk).terminal = true) :
    execute bc0 nft m H junk = execute bc0 nft n H junk := by
  unfold execute at h ⊢
  cases hi : init bc0 H junk with
  | none => rfl
  | some s0 =>
    rw [hi] at h
    exact run_of_le bc0 nft n m s0 hnm h

/-! ## C1: branch targets -/

theorem cond_branch_eq (s : State) (test : c0_value → c0_value → Bool) (hi lo : Nat)
    (first second : c0_value) (rest : List c0_value)
    (h1 : ubyte_at s.P (s.pc + 1) = some hi) (h2 : ubyte_at s.P (s.pc + 2) = some lo)
    (hS : s.S = first :: second :: rest) :
    cond_branch s test = .running { s with
      S := rest,
      pc := if test first second = true
            then size_add s.pc (int16_t (256 * hi + lo)) else s.pc + 3 } := by
  have hor : (hi <<< 8) ||| lo = 256 * hi + lo := shl8_or hi lo (ubyte_at_lt h2)
  simp only [cond_branch, h1, h2, hS, hor, branch_pc]
  cases test first second <;> simp

theorem S2_rel_opcode_exit (nft : Nat → Option native_fn) (H : Heap) (junk : Nat → c0_value) :
    execute S2_bc0_rel_opcode nft 6 H junk = .returned 42 := by
  simp [execute, init, run, S2_bc0_rel_opcode, step, exec, cond_branch, ubyte_at,
    S2_code_rel_opcode, ins, opcode.byte, decode, opcode.all, val_equal, size_add, int16_t,
    int8_t, int2val, val2int]

/-- C1, as stated, fails on scenario S2: the taken `IF_CMPEQ` at address 4 with
displacement 5 does not continue at address `4 + 1 + 5 = 10` but at address 9,
and the program never exits with 42. -/
theorem C1_counterexample :
    ubyte_at S2_at_branch.P S2_at_branch.pc = some opcode.IF_CMPEQ.byte ∧
    ((step S2_bc0 no_natives S2_at_branch).state.map (fun t => (t.pc : Int))
        ≠ some (4 + 1 + int16_t (256 * 0 + 5))) ∧
    (step S2_bc0 no_natives S2_at_branch).state.map (fun t => t.pc) = some 9 ∧
    ∀ fuel, execute S2_bc0 no_natives fuel zero_heap zero_junk ≠ .returned 42 := by
  refine ⟨by decide, by decide, by decide, ?_⟩
  intro fuel
  by_cases hf : 4 ≤ fuel
  · have ht : (execute S2_bc0 no_natives 4 zero_heap zero_junk).terminal = true := by rfl
    rw [execute_of_le S2_bc0 no_natives zero_heap zero_junk 4 fuel hf ht]
    intro h
    have : (execute S2_bc0 no_natives 4 zero_heap zero_junk).exit_value = some 42 := by rw [h]; rfl
    revert this
    decide
  · have hlt : fuel < 4 := by omega
    intro h
    have h2 : (execute S2_bc0 no_natives fuel zero_heap zero_junk).exit_value = some 42 := by
      rw [h]; rfl
    revert h2
    interval_cases fuel <;> decide

/-- C1 (amended): for GOTO and the six conditional branches at address `a = pc`
with operand bytes `hi`, `lo` and `d = (int16_t)(256*hi + lo)`, a taken branch
sets `pc = a + d` (computed in `size_t`, i.e. the displacement is measured from
the opcode byte) and a conditional branch that is not taken sets `pc = a + 3`.
Scenario S2 with displacement `+6` exits with 42. -/
theorem C1_branch_target (bc0 : bc0_file) (nft : Nat → Option native_fn) (s : State)
    (hi lo : Nat) (first second : c0_value) (rest : List c0_value)
    (h1 : ubyte_at s.P (s.pc + 1) = some hi) (h2 : ubyte_at s.P (s.pc + 2) = some lo) :
    (ubyte_at s.P s.pc = some opcode.GOTO.byte →
      step bc0 nft s = .running { s with pc := size_add s.pc (int16_t (256 * hi + lo)) }) ∧
    (ubyte_at s.P s.pc = some opcode.IF_CMPEQ.byte → s.S = first :: second :: rest →
      step bc0 nft s = .running { s with
        S := rest,
        pc := if val_equal first second = true
              then size_add s.pc (int16_t (256 * hi + lo)) else s.pc + 3 }) ∧
    (ubyte_at s.P s.pc = some opcode.IF_CMPNE.byte → s.S = first :: second :: rest →
      step bc0 nft s = .running { s with
        S := rest,
        pc := if val_equal first second = false
              then size_add s.pc (int16_t (256 * hi + lo)) else s.pc + 3 }) ∧
    (ubyte_at s.P s.pc = some opcode.IF_ICMPLT.byte → s.S = first :: second :: rest →
      step bc0 nft s = .running { s with
        S := rest,
        pc := if val2int second < val2int first
              then size_add s.pc (int16_t (256 * hi + lo)) else s.pc + 3 }) ∧
    (ubyte_at s.P s.pc = some opcode.IF_ICMPGE.byte → s.S = first :: second :: rest →
      step bc0 nft s = .running { s with
        S := rest,
        pc := if val2int second ≥ val2int first
              then size_add s.pc (int16_t (256 * hi + lo)) else s.pc + 3 }) ∧
    (ubyte_at s.P s.pc = some opcode.IF_ICMPGT.byte → s.S = first :: second :: rest →
      step bc0 nft s = .running { s with
        S := rest,
        pc := if val2int second > val2int first
              then size_add s.pc (int16_t (256 * hi + lo)) else s.pc + 3 }) ∧
    (ubyte_at s.P s.pc = some opcode.IF_ICMPLE.byte → s.S = first :: second :: rest →
      step bc0 nft s = .running { s with
        S := rest,
        pc := if val2int second ≤ val2int first
              then size_add s.pc (int16_t (256 * hi + lo)) else s.pc + 3 }) ∧
    (∀ (a : Nat) (d : Int), 0 ≤ (a : Int) + d → (a : Int) + d < 18446744073709551616 →
      (size_add a d : Int) = a + d) ∧
    (∀ (nft1 : Nat → Option native_fn) (fuel : Nat) (H : Heap) (junk : Nat → c0_value),
      6 ≤ fuel → execute S2_bc0_rel_opcode nft1 fuel H junk = .returned 42) := by
  have hor : (hi <<< 8) ||| lo = 256 * hi + lo := shl8_or hi lo (ubyte_at_lt h2)
  refine ⟨?_, ?_, ?_, ?_, ?_, ?_, ?_, size_add_of_range, ?_⟩
  · intro h
    rw [step_eq_exec bc0 nft s _ h]
    simp only [exec, h1, h2, hor, branch_pc]
  · intro h hS
    rw [step_eq_exec bc0 nft s _ h]
    simp only [exec, cond_branch_eq s _ hi lo first second rest h1 h2 hS]
  · intro h hS
    rw [step_eq_exec bc0 nft s _ h]
    simp only [exec, cond_branch_eq s _ hi lo first second rest h1 h2 hS, Bool.not_eq_true']
  · intro h hS
    rw [step_eq_exec bc0 nft s _ h]
    simp only [exec, cond_branch_eq s _ hi lo first second rest h1 h2 hS, decide_eq_true_eq]
  · intro h hS
    rw [step_eq_exec bc0 nft s _ h]
    simp only [exec, cond_branch_eq s _ hi lo first second rest h1 h2 hS, decide_eq_true_eq]
  · intro h hS
    rw [step_eq_exec bc0 nft s _ h]
    simp only [exec, cond_branch_eq s _ hi lo first second rest h1 h2 hS, decide_eq_true_eq]
  · intro h hS
    rw [step_eq_exec bc0 nft s _ h]
    simp only [exec, cond_branch_eq s _ hi lo first second rest h1 h2 hS, decide_eq_true_eq]
  · intro nft1 fuel H junk hf
    have e := S2_rel_opcode_exit nft1 H junk
    rw [execute_of_le S2_bc0_rel_opcode nft1 H junk 6 fuel hf (by rw [e]; rfl), e]

/-- C1 (amended), at scenario S2 with displacement `+6`: the taken `IF_CMPEQ`
at address 4 continues at address 10. -/
theorem C1_branch_target_witness :
    ubyte_at S2_code_rel_opcode 5 = some 0 ∧ ubyte_at S2_code_rel_opcode 6 = some 6 ∧
    step S2_bc0_rel_opcode no_natives
        { S := [.int 1, .int 1], P := S2_code_rel_opcode, pc := 4, V := [], callStack := [],
          H := zero_heap }
      = .running { S := [], P := S2_code_rel_opcode, pc := 10, V := [], callStack := [],
                   H := zero_heap } :=
  ⟨by decide, by decide,
   (C1_branch_target S2_bc0_rel_opcode no_natives
      { S := [.int 1, .int 1], P := S2_code_rel_opcode, pc := 4, V := [], callStack := [],
        H := zero_heap } 0 6 (.int 1) (.int 1) [] (by decide) (by decide)).2.1
      (by decide) rfl⟩

/-! ## C2, C3: INVOKESTATIC and RETURN -/

theorem u16_or (b1 b2 : Nat) (h1 : b1 < 256) (h2 : b2 < 256) :
    ((b1 <<< 8) % 65536) ||| b2 = 256 * b1 + b2 := by
  have e : (b1 <<< 8) % 65536 = b1 <<< 8 := by
    rw [Nat.shiftLeft_eq]
    omega
  rw [e, shl8_or b1 b2 h2]

theorem drop_set_self {α : Type} (v : α) :
    ∀ (V : List α) (k : Nat), k < V.length → (V.set k v).drop k = v :: V.drop (k + 1) := by
  intro V
  induction V with
  | nil => intro k hk; simp at hk
  | cons x xs ih =>
    intro k hk
    cases k with
    | zero => simp
    | succ k =>
      simp only [List.set_cons_succ, List.drop_succ_cons]
      exact ih k (by simpa using hk)

/-- The argument loop pops `k` values and stores the one pushed first at index 0. -/
theorem pop_args_eq :
    ∀ (k : Nat) (V args rest : List c0_value), args.length = k → k ≤ V.length →
      pop_args k V (args.reverse ++ rest) = some (args ++ V.drop k, rest) := by
  intro k
  induction k with
  | zero =>
    intro V args rest ha _
    have : args = [] := List.length_eq_zero.mp ha
    subst this
    simp [pop_args]
  | succ k ih =>
    intro V args rest ha hk
    have hne : args ≠ [] := by
      intro h
      rw [h] at ha
      simp at ha
    obtain ⟨front, last, rfl⟩ : ∃ front last, args = front ++ [last] :=
      ⟨args.dropLast, args.getLast hne, (List.dropLast_append_getLast hne).symm⟩
    have hf : front.length = k := by simpa using ha
    have hlt : k < V.length := hk
    simp only [List.reverse_append, List.reverse_singleton, List.singleton_append,
      List.cons_append, List.nil_append, pop_args, hlt, if_true]
    rw [ih (V.set k last) front rest hf (by simp; omega), drop_set_self last V k hlt]
    simp

/-- The argument loop runs out of the array when there are more arguments than slots. -/
theorem pop_args_overflow (k : Nat) (V S : List c0_value) (h : V.length < k) :
    pop_args k V S = none := by
  cases k with
  | zero => omega
  | succ k =>
    cases S with
    | nil => rfl
    | cons v S1 =>
      have : ¬ k < V.length := by omega
      simp [pop_args, this]

/-- The step of INVOKESTATIC in full. -/
theorem invokestatic_step (bc0 : bc0_file) (nft : Nat → Option native_fn) (s : State)
    (hi lo : Nat) (fn : function_info) (args rest : List c0_value)
    (hop : ubyte_at s.P s.pc = some opcode.INVOKESTATIC.byte)
    (h1 : ubyte_at s.P (s.pc + 1) = some hi) (h2 : ubyte_at s.P (s.pc + 2) = some lo)
    (hfn : pool_at bc0.function_pool (int16_t (256 * hi + lo)) = some fn)
    (hk : fn.num_args ≤ fn.num_vars) (hargs : args.length = fn.num_args)
    (hS : s.S = args.reverse ++ rest) :
    step bc0 nft s = .running
      { S := [], P := fn.code, pc := 0,
        V := args ++ List.replicate (fn.num_vars - fn.num_args) (int2val 0),
        callStack := { S := rest, P := s.P, pc := s.pc + 3, V := s.V } :: s.callStack,
        H := s.H } := by
  rw [step_eq_exec bc0 nft s _ hop]
  simp only [exec, h1, h2, u16_or hi lo (ubyte_at_lt h1) (ubyte_at_lt h2), hfn, hS]
  rw [pop_args_eq fn.num_args _ args rest hargs (by simpa using hk)]
  simp

/-- The step of RETURN in a callee. -/
theorem return_step (bc0 : bc0_file) (nft : Nat → Option native_fn) (t : State)
    (r : c0_value) (S : List c0_value) (fr : frame_info) (C : List frame_info)
    (hop : ubyte_at t.P t.pc = some opcode.RETURN.byte)
    (hS : t.S = r :: S) (hC : t.callStack = fr :: C) :
    step bc0 nft t = .running
      { S := r :: fr.S, P := fr.P, pc := fr.pc, V := fr.V, callStack := C, H := t.H } := by
  rw [step_eq_exec bc0 nft t _ hop]
  simp only [exec, hS, hC]

theorem S3_exit (nft : Nat → Option native_fn) (H : Heap) (junk : Nat → c0_value) :
    execute S3_bc0 nft 9 H junk = .returned 11 := by
  simp [execute, init, run, S3_bc0, step, exec, ubyte_at, S3_code0, S3_code1, ins,
    opcode.byte, decode, opcode.all, int16_t, int8_t, int2val, val2int, pool_at, pop_args,
    wrap32]

/-- C2: INVOKESTATIC at address `a = pc`, selecting the function_pool entry `fn`
with `k = fn.num_args <= fn.num_vars`, run on the operand stack
`rest ++ [v1, ..., vk]` (written top first: `[vk, ..., v1] ++ rest`), yields locals
`[v1, ..., vk]` followed by zeros up to length `fn.num_vars`, an empty operand
stack, code `fn.code`, `pc = 0`, and the old call stack with one frame pushed
that holds `rest`, the caller's locals, the caller's code and `pc = a + 3`. -/
theorem C2_invokestatic (bc0 : bc0_file) (nft : Nat → Option native_fn) (s : State)
    (hi lo : Nat) (fn : function_info) (args rest : List c0_value)
    (hop : ubyte_at s.P s.pc = some opcode.INVOKESTATIC.byte)
    (h1 : ubyte_at s.P (s.pc + 1) = some hi) (h2 : ubyte_at s.P (s.pc + 2) = some lo)
    (hfn : pool_at bc0.function_pool (int16_t (256 * hi + lo)) = some fn)
    (hk : fn.num_args ≤ fn.num_vars) (hargs : args.length = fn.num_args)
    (hS : s.S = args.reverse ++ rest) :
    ∃ V1 : List c0_value,
      step bc0 nft s = .running
        { S := [], P := fn.code, pc := 0, V := V1,
          callStack := { S := rest, P := s.P, pc := s.pc + 3, V := s.V } :: s.callStack,
          H := s.H } ∧
      V1.length = fn.num_vars ∧
      (∀ i, i < fn.num_args → V1[i]? = args[i]?) ∧
      (∀ i, fn.num_args ≤ i → i < fn.num_vars → V1[i]? = some (int2val 0)) := by
  refine ⟨args ++ List.replicate (fn.num_vars - fn.num_args) (int2val 0),
    invokestatic_step bc0 nft s hi lo fn args rest hop h1 h2 hfn hk hargs hS, ?_, ?_, ?_⟩
  · simp [hargs]
    omega
  · intro i hi1
    rw [List.getElem?_append_left (by omega)]
  · intro i hi1 hi2
    rw [List.getElem?_append_right (by omega)]
    rw [List.getElem?_replicate]
    simp
    omega

/-- C2 at the call of scenario S3: the argument 10 becomes local 0 of the callee. -/
theorem C2_invokestatic_witness :
    ∃ V1 : List c0_value,
      step S3_bc0 no_natives S3_at_call = .running
        { S := [], P := S3_code1, pc := 0, V := V1,
          callStack := [{ S := [], P := S3_code0, pc := 9, V := [.int 10] }],
          H := zero_heap } ∧
      V1.length = 1 ∧
      (∀ i, i < 1 → V1[i]? = [c0_value.int 10][i]?) ∧
      (∀ i, 1 ≤ i → i < 1 → V1[i]? = some (int2val 0)) :=
  C2_invokestatic S3_bc0 no_natives S3_at_call 0 1
    { num_args := 1, num_vars := 1, code := S3_code1 } [.int 10] []
    (by decide) (by decide) (by decide) (by decide) (by decide) (by decide) rfl

/-- C3: INVOKESTATIC followed by the callee's RETURN restores the caller's frame
with the arguments replaced by the return value.  For a caller state `s` with
operand stack `rest ++ args` (top first: `args.reverse ++ rest`),
`|args| = fn.num_args`, whenever INVOKESTATIC at `a = s.pc` is executed and
leads to `s1`, a callee state `t` that fetches RETURN with exactly `r` on its
operand stack and the call stack of `s1` (its locals, code, pc and heap being
arbitrary) steps to operand stack `rest ++ [r]`, locals, code and call stack of
`s`, and `pc = a + 3`.  The call is executed whenever
`fn.num_args <= fn.num_vars`.  Scenario S3 exits with 11. -/
theorem C3_invokestatic_return (bc0 : bc0_file) (nft : Nat → Option native_fn) (s t : State)
    (hi lo : Nat) (fn : function_info) (args rest : List c0_value) (r : c0_value)
    (hop : ubyte_at s.P s.pc = some opcode.INVOKESTATIC.byte)
    (h1 : ubyte_at s.P (s.pc + 1) = some hi) (h2 : ubyte_at s.P (s.pc + 2) = some lo)
    (hfn : pool_at bc0.function_pool (int16_t (256 * hi + lo)) = some fn)
    (hargs : args.length = fn.num_args) (hS : s.S = args.reverse ++ rest)
    (htop : ubyte_at t.P t.pc = some opcode.RETURN.byte) (htS : t.S = [r]) :
    (∀ s1, step bc0 nft s = .running s1 → t.callStack = s1.callStack →
      step bc0 nft t = .running
        { S := r :: rest, P := s.P, pc := s.pc + 3, V := s.V, callStack := s.callStack,
          H := t.H }) ∧
    (fn.num_args ≤ fn.num_vars → ∃ s1, step bc0 nft s = .running s1) ∧
    (∀ (nft1 : Nat → Option native_fn) (fuel : Nat) (H : Heap) (junk : Nat → c0_value),
      9 ≤ fuel → execute S3_bc0 nft1 fuel H junk = .returned 11) := by
  refine ⟨?_, ?_, ?_⟩
  · intro s1 hs1 hC
    by_cases hk : fn.num_args ≤ fn.num_vars
    · rw [invokestatic_step bc0 nft s hi lo fn args rest hop h1 h2 hfn hk hargs hS] at hs1
      injection hs1 with hs1
      subst hs1
      exact return_step bc0 nft t r [] _ _ htop htS hC
    · exfalso
      rw [step_eq_exec bc0 nft s _ hop] at hs1
      simp only [exec, h1, h2, u16_or hi lo (ubyte_at_lt h1) (ubyte_at_lt h2), hfn] at hs1
      rw [pop_args_overflow fn.num_args _ s.S (by simp; omega)] at hs1
      simp at hs1
  · intro hk
    exact ⟨_, invokestatic_step bc0 nft s hi lo fn args rest hop h1 h2 hfn hk hargs hS⟩
  · intro nft1 fuel H junk hf
    have e := S3_exit nft1 H junk
    rw [execute_of_le S3_bc0 nft1 H junk 9 fuel hf (by rw [e]; rfl), e]

/-- C3 at scenario S3: the callee's RETURN of 11 resumes function 0 at address 9
with operand stack `[11]` and its own locals. -/
theorem C3_invokestatic_return_witness :
    step S3_bc0 no_natives S3_at_return = .running
      { S := [.int 11], P := S3_code0, pc := 9, V := [.int 10], callStack := [],
        H := zero_heap } :=
  (C3_invokestatic_return S3_bc0 no_natives S3_at_call S3_at_return 0 1
    { num_args := 1, num_vars := 1, code := S3_code1 } [.int 10] [] (.int 11)
    (by decide) (by decide) (by decide) (by decide) (by decide) rfl (by decide) rfl).1
    { S := [], P := S3_code1, pc := 0, V := [.int 10],
      callStack := [{ S := [], P := S3_code0, pc := 9, V := [.int 10] }], H := zero_heap }
    (invokestatic_step S3_bc0 no_natives S3_at_call 0 1
      { num_args := 1, num_vars := 1, code := S3_code1 } [.int 10] []
      (by decide) (by decide) (by decide) (by decide) (by decide) (by decide) rfl)
    rfl

/-! ## C4: IDIV and IREM -/

theorem tmod_sign_bound (a b : Int) (hb : b ≠ 0) :
    (a.tmod b).natAbs < b.natAbs ∧ (0 ≤ a → 0 ≤ a.tmod b) ∧ (a ≤ 0 → a.tmod b ≤ 0) := by
  have hbn : 0 < b.natAbs := Int.natAbs_pos.mpr hb
  rcases a with m | m <;> rcases b with n | n
  · have := Nat.mod_lt m hbn
    simp only [Int.ofNat_eq_coe, Int.natAbs_ofNat] at this hbn ⊢
    refine ⟨?_, ?_, ?_⟩
    · show ((m % n : Nat) : Int).natAbs < n
      simpa using this
    · intro _
      show 0 ≤ ((m % n : Nat) : Int)
      omega
    · intro h
      have : m = 0 := by omega
      subst this
      show ((0 % n : Nat) : Int) ≤ 0
      simp
  · have := Nat.mod_lt m hbn
    simp only [Int.ofNat_eq_coe, Int.natAbs_negSucc] at this hbn ⊢
    refine ⟨?_, ?_, ?_⟩
    · show ((m % (n + 1) : Nat) : Int).natAbs < n + 1
      simpa using this
    · intro _
      show 0 ≤ ((m % (n + 1) : Nat) : Int)
      omega
    · intro h
      have : m = 0 := by omega
      subst this
      show ((0 % (n + 1) : Nat) : Int) ≤ 0
      simp
  · have := Nat.mod_lt (m + 1) hbn
    simp only [Int.ofNat_eq_coe, Int.natAbs_ofNat] at this hbn ⊢
    refine ⟨?_, ?_, ?_⟩
    · show (-(((m + 1) % n : Nat) : Int)).natAbs < n
      simpa using this
    · intro h
      exact absurd h (by simp [Int.negSucc_lt_zero])
    · intro _
      show -(((m + 1) % n : Nat) : Int) ≤ 0
      omega
  · have := Nat.mod_lt (m + 1) hbn
    simp only [Int.natAbs_negSucc] at this hbn ⊢
    refine ⟨?_, ?_, ?_⟩
    · show (-(((m + 1) % (n + 1) : Nat) : Int)).natAbs < n + 1
      simpa using this
    · intro h
      exact absurd h (by simp [Int.negSucc_lt_zero])
    · intro _
      show -(((m + 1) % (n + 1) : Nat) : Int) ≤ 0
      omega

theorem tdiv_range (a b : Int) (ha : isInt32 a) (hb : b ≠ 0)
    (hov : ¬ (a = INT32_MIN ∧ b = -1)) : isInt32 (a.tdiv b) := by
  unfold isInt32 INT32_MIN INT32_MAX at *
  have hq : (a.tdiv b).natAbs = a.natAbs / b.natAbs := Int.natAbs_tdiv a b
  have hbn : 0 < b.natAbs := Int.natAbs_pos.mpr hb
  have hle : a.natAbs / b.natAbs ≤ a.natAbs := Nat.div_le_self _ _
  have hmul : a.natAbs / b.natAbs * b.natAbs ≤ a.natAbs := Nat.div_mul_le_self _ _
  constructor
  · omega
  · by_contra hcon
    have h31 : a.natAbs / b.natAbs = 2147483648 := by omega
    rw [h31] at hmul
    have hb1 : b = 1 ∨ b = -1 := by omega
    rcases hb1 with rfl | rfl
    · rw [Int.tdiv_one] at hcon
      omega
    · have : a = -2147483648 := by omega
      exact hov ⟨this, rfl⟩

theorem S4_trap (nft : Nat → Option native_fn) (H : Heap) (junk : Nat → c0_value) :
    execute S4_bc0 nft 3 H junk = .aborted (.c0_arith_error "Cannot divide by zero.")
      { S := [], P := S4_code, pc := 5, V := [], callStack := [], H := H } := by
  simp [execute, init, run, S4_bc0, S4_code, step, exec, ubyte_at, ins, opcode.byte, decode,
    opcode.all, int8_t, int2val, val2int]

/-- C4: with `b` on top of the operand stack and `a` beneath it (both 32-bit
signed), IDIV and IREM end in an arithmetic trap exactly when `b = 0` or
(`a = INT32_MIN` and `b = -1`); otherwise they replace the two operands by the
quotient `q` truncated toward zero, resp. by the remainder `r = a - b * q`, and
advance `pc` by 1.  Truncation: `r` is smaller than `b` in absolute value and
has the sign of `a`; `q` and `r` are 32-bit signed.  Scenario S4 ends in an
arithmetic trap. -/
theorem C4_idiv_irem (bc0 : bc0_file) (nft : Nat → Option native_fn) (s : State)
    (a b : Int) (rest : List c0_value) (ha : isInt32 a) (hb : isInt32 b)
    (hS : s.S = int2val b :: int2val a :: rest) :
    (ubyte_at s.P s.pc = some opcode.IDIV.byte →
      ((step bc0 nft s).is_arith_trap = true ↔ (b = 0 ∨ (a = INT32_MIN ∧ b = -1))) ∧
      (¬ (b = 0 ∨ (a = INT32_MIN ∧ b = -1)) →
        step bc0 nft s = .running { s with pc := s.pc + 1, S := int2val (a.tdiv b) :: rest })) ∧
    (ubyte_at s.P s.pc = some opcode.IREM.byte →
      ((step bc0 nft s).is_arith_trap = true ↔ (b = 0 ∨ (a = INT32_MIN ∧ b = -1))) ∧
      (¬ (b = 0 ∨ (a = INT32_MIN ∧ b = -1)) →
        step bc0 nft s =
          .running { s with pc := s.pc + 1, S := int2val (a - b * a.tdiv b) :: rest })) ∧
    (¬ (b = 0 ∨ (a = INT32_MIN ∧ b = -1)) →
      isInt32 (a.tdiv b) ∧ isInt32 (a - b * a.tdiv b) ∧
      (a - b * a.tdiv b).natAbs < b.natAbs ∧
      (0 ≤ a → 0 ≤ a - b * a.tdiv b) ∧ (a ≤ 0 → a - b * a.tdiv b ≤ 0)) ∧
    (∀ (nft1 : Nat → Option native_fn) (fuel : Nat) (H : Heap) (junk : Nat → c0_value),
      3 ≤ fuel → (execute S4_bc0 nft1 fuel H junk).is_arith_trap = true) := by
  refine ⟨?_, ?_, ?_, ?_⟩
  · intro h
    rw [step_eq_exec bc0 nft s _ h]
    simp only [exec, hS, int2val, val2int]
    by_cases hb0 : b = 0
    · simp [hb0, Outcome.is_arith_trap]
    · by_cases hov : a = INT32_MIN ∧ b = -1
      · simp [hb0, hov, Outcome.is_arith_trap]
      · simp [hb0, hov, Outcome.is_arith_trap]
  · intro h
    rw [step_eq_exec bc0 nft s _ h]
    simp only [exec, hS, int2val, val2int, Int.tmod_def]
    by_cases hb0 : b = 0
    · simp [hb0, Outcome.is_arith_trap]
    · by_cases hov : a = INT32_MIN ∧ b = -1
      · simp [hb0, hov, Outcome.is_arith_trap]
      · simp [hb0, hov, Outcome.is_arith_trap]
  · intro hc
    have hb0 : b ≠ 0 := fun h => hc (Or.inl h)
    have hov : ¬ (a = INT32_MIN ∧ b = -1) := fun h => hc (Or.inr h)
    have hr := tmod_sign_bound a b hb0
    rw [Int.tmod_def] at hr
    refine ⟨tdiv_range a b ha hb0 hov, ?_, hr.1, hr.2.1, hr.2.2⟩
    unfold isInt32 INT32_MIN INT32_MAX at *
    omega
  · intro nft1 fuel H junk hf
    have e := S4_trap nft1 H junk
    rw [execute_of_le S4_bc0 nft1 H junk 3 fuel hf (by rw [e]; rfl), e]
    rfl

/-- C4 at `a = -7`, `b = 2`: IDIV pushes `-3`, the quotient truncated toward zero. -/
theorem C4_idiv_irem_witness :
    isInt32 (-7) ∧ isInt32 2 ∧
    step empty_bc0 no_natives (at_start (ins .IDIV []) [int2val 2, int2val (-7)])
      = .running { at_start (ins .IDIV []) [int2val 2, int2val (-7)] with
                   pc := 1, S := [int2val (-3)] } :=
  ⟨by decide, by decide,
   ((C4_idiv_irem empty_bc0 no_natives (at_start (ins .IDIV []) [int2val 2, int2val (-7)])
      (-7) 2 [] (by decide) (by decide) rfl).1 (by decide)).2 (by decide)⟩

/-! ## C5: ISHL and ISHR -/

theorem wrap32_congr (x y : Int) (h : x % 4294967296 = y % 4294967296) :
    wrap32 x = wrap32 y := by
  unfold wrap32
  omega

theorem wrap32_range (x : Int) : isInt32 (wrap32 x) := by
  unfold isInt32 INT32_MIN INT32_MAX wrap32
  omega

theorem wrap32_emod (x : Int) : wrap32 x % 4294967296 = x % 4294967296 := by
  unfold wrap32
  omega

theorem wrap32_of_range (x : Int) (h : isInt32 x) : wrap32 x = x := by
  unfold isInt32 INT32_MIN INT32_MAX at h
  unfold wrap32
  omega

theorem int_shl_eq (a : Int) (n : Nat) : int_shl a n = wrap32 (a * 2 ^ n) := by
  unfold int_shl toU32
  apply wrap32_congr
  rw [Nat.shiftLeft_eq]
  push_cast
  rw [Int.toNat_of_nonneg (Int.emod_nonneg a (by decide))]
  rw [Int.mul_emod (a % 4294967296), Int.emod_emod, ← Int.mul_emod]

theorem int_shr_eq (a : Int) (n : Nat) : int_shr a n = a / 2 ^ n := by
  unfold int_shr
  rw [Int.shiftRight_eq_div_pow]
  push_cast
  rfl

theorem floor_div_pow (a : Int) (n : Nat) :
    (a / 2 ^ n) * 2 ^ n ≤ a ∧ a < (a / 2 ^ n + 1) * 2 ^ n ∧
    (0 ≤ a → 0 ≤ a / 2 ^ n) ∧ (a < 0 → a / 2 ^ n < 0) := by
  have hp : (0 : Int) < 2 ^ n := by positivity
  refine ⟨Int.ediv_mul_le a (ne_of_gt hp), Int.lt_ediv_add_one_mul_self a hp, ?_, ?_⟩
  · intro h
    exact Int.ediv_nonneg h (le_of_lt hp)
  · intro h
    exact Int.ediv_neg' h hp

/-- C5: with `b` on top of the operand stack and `a` beneath it, each of ISHL
and ISHR stops in an arithmetic trap exactly when `b < 0` or `b >= 32`;
otherwise ISHL replaces the operands by `a * 2^b` reduced modulo 2^32 to a
signed 32-bit value and ISHR by `floor(a / 2^b)`, which has the sign of `a`. -/
theorem C5_shifts (bc0 : bc0_file) (nft : Nat → Option native_fn) (s : State)
    (a b : Int) (rest : List c0_value) (hS : s.S = int2val b :: int2val a :: rest) :
    (ubyte_at s.P s.pc = some opcode.ISHL.byte →
      ((step bc0 nft s).is_arith_trap = true ↔ (b < 0 ∨ b ≥ 32)) ∧
      (¬ (b < 0 ∨ b ≥ 32) →
        step bc0 nft s =
          .running { s with pc := s.pc + 1, S := int2val (wrap32 (a * 2 ^ b.toNat)) :: rest })) ∧
    (ubyte_at s.P s.pc = some opcode.ISHR.byte →
      ((step bc0 nft s).is_arith_trap = true ↔ (b < 0 ∨ b ≥ 32)) ∧
      (¬ (b < 0 ∨ b ≥ 32) →
        step bc0 nft s =
          .running { s with pc := s.pc + 1, S := int2val (a / 2 ^ b.toNat) :: rest })) ∧
    (isInt32 (wrap32 (a * 2 ^ b.toNat)) ∧
      wrap32 (a * 2 ^ b.toNat) % 4294967296 = (a * 2 ^ b.toNat) % 4294967296) ∧
    ((a / 2 ^ b.toNat) * 2 ^ b.toNat ≤ a ∧ a < (a / 2 ^ b.toNat + 1) * 2 ^ b.toNat ∧
      (0 ≤ a → 0 ≤ a / 2 ^ b.toNat) ∧ (a < 0 → a / 2 ^ b.toNat < 0)) := by
  refine ⟨?_, ?_, ⟨wrap32_range _, wrap32_emod _⟩, floor_div_pow a b.toNat⟩
  · intro h
    rw [step_eq_exec bc0 nft s _ h]
    simp only [exec, hS, int2val, val2int, int_shl_eq]
    by_cases hc : b < 0 ∨ b ≥ 32
    · simp [hc, Outcome.is_arith_trap]
    · simp [hc, Outcome.is_arith_trap]
  · intro h
    rw [step_eq_exec bc0 nft s _ h]
    simp only [exec, hS, int2val, val2int, int_shr_eq]
    by_cases hc : b < 0 ∨ b ≥ 32
    · simp [hc, Outcome.is_arith_trap]
    · simp [hc, Outcome.is_arith_trap]

/-- C5 at `a = -7`, `b = 1`: ISHR pushes `-4 = floor(-7 / 2)`. -/
theorem C5_shifts_witness :
    step empty_bc0 no_natives (at_start (ins .ISHR []) [int2val 1, int2val (-7)])
      = .running { at_start (ins .ISHR []) [int2val 1, int2val (-7)] with
                   pc := 1, S := [int2val (-4)] } :=
  ((C5_shifts empty_bc0 no_natives (at_start (ins .ISHR []) [int2val 1, int2val (-7)])
      (-7) 1 [] rfl).2.1 (by decide)).2 (by decide)

/-! ## C6: IADD, ISUB, IMUL -/

theorem S1_exit (nft : Nat → Option native_fn) (H : Heap) (junk : Nat → c0_value) :
    execute S1_bc0 nft 4 H junk = .returned 2 := by
  simp [execute, init, run, S1_bc0, S1_code, step, exec, ubyte_at, ins, opcode.byte, decode,
    opcode.all, int8_t, int2val, val2int, wrap32]

/-- C6: with `b` on top of the operand stack and `a` beneath it, IADD, ISUB and
IMUL replace the two operands by `a + b`, `a - b` and `a * b`, each reduced
modulo 2^32 to a signed 32-bit value (`a`, pushed first, is the left operand),
leave the rest of the stack unchanged and advance `pc` by 1.  The reduction
`wrap32 x` is 32-bit signed, congruent to `x` modulo 2^32, and equal to `x` when
`x` is 32-bit signed.  Scenario S1 exits with 2. -/
theorem C6_add_sub_mul (bc0 : bc0_file) (nft : Nat → Option native_fn) (s : State)
    (a b : Int) (rest : List c0_value) (hS : s.S = int2val b :: int2val a :: rest) :
    (ubyte_at s.P s.pc = some opcode.IADD.byte →
      step bc0 nft s = .running { s with pc := s.pc + 1, S := int2val (wrap32 (a + b)) :: rest }) ∧
    (ubyte_at s.P s.pc = some opcode.ISUB.byte →
      step bc0 nft s = .running { s with pc := s.pc + 1, S := int2val (wrap32 (a - b)) :: rest }) ∧
    (ubyte_at s.P s.pc = some opcode.IMUL.byte →
      step bc0 nft s = .running { s with pc := s.pc + 1, S := int2val (wrap32 (a * b)) :: rest }) ∧
    (∀ x : Int, isInt32 (wrap32 x) ∧ wrap32 x % 4294967296 = x % 4294967296 ∧
      (isInt32 x → wrap32 x = x)) ∧
    (∀ (nft1 : Nat → Option native_fn) (fuel : Nat) (H : Heap) (junk : Nat → c0_value),
      4 ≤ fuel → execute S1_bc0 nft1 fuel H junk = .returned 2) := by
  refine ⟨?_, ?_, ?_, fun x => ⟨wrap32_range x, wrap32_emod x, wrap32_of_range x⟩, ?_⟩
  · intro h
    rw [step_eq_exec bc0 nft s _ h]
    simp only [exec, hS, int2val, val2int]
  · intro h
    rw [step_eq_exec bc0 nft s _ h]
    simp only [exec, hS, int2val, val2int]
  · intro h
    rw [step_eq_exec bc0 nft s _ h]
    simp only [exec, hS, int2val, val2int]
  · intro nft1 fuel H junk hf
    have e := S1_exit nft1 H junk
    rw [execute_of_le S1_bc0 nft1 H junk 4 fuel hf (by rw [e]; rfl), e]

/-- C6 at `a = INT32_MAX`, `b = 1`: IADD wraps to `INT32_MIN`. -/
theorem C6_add_sub_mul_witness :
    step empty_bc0 no_natives (at_start (ins .IADD []) [int2val 1, int2val 2147483647])
      = .running { at_start (ins .IADD []) [int2val 1, int2val 2147483647] with
                   pc := 1, S := [int2val (wrap32 (2147483647 + 1))] } ∧
    wrap32 (2147483647 + 1) = -2147483648 :=
  ⟨(C6_add_sub_mul empty_bc0 no_natives
      (at_start (ins .IADD []) [int2val 1, int2val 2147483647]) 2147483647 1 [] rfl).1
      (by decide), by decide⟩

/-! ## The heap: reads after writes -/

theorem store_le_top (n : Nat) : ∀ (h : Heap) (a v : Nat), (store_le h a n v).top = h.top := by
  induction n with
  | zero => intro h a v; rfl
  | succ n ih =>
    intro h a v
    simp only [store_le]
    rw [ih]
    rfl

theorem load8_store8 (h : Heap) (a v x : Nat) :
    load8 (store8 h a v) x = if x = a then v % 256 else load8 h x := by
  unfold load8 store8
  by_cases hx : x = a <;> simp [hx]

theorem load8_store_le (n : Nat) : ∀ (h : Heap) (a v x : Nat),
    load8 (store_le h a n v) x =
      if a ≤ x ∧ x < a + n then (v / 256 ^ (x - a)) % 256 else load8 h x := by
  induction n with
  | zero =>
    intro h a v x
    have : ¬ (a ≤ x ∧ x < a + 0) := by omega
    rw [if_neg this]
    rfl
  | succ n ih =>
    intro h a v x
    simp only [store_le]
    rw [ih, load8_store8]
    by_cases hxa : x = a
    · subst hxa
      have h1 : ¬ (x + 1 ≤ x ∧ x < x + 1 + n) := by omega
      have h2 : x ≤ x ∧ x < x + (n + 1) := by omega
      simp [h1, h2]
    · by_cases hin : a + 1 ≤ x ∧ x < a + 1 + n
      · have h2 : a ≤ x ∧ x < a + (n + 1) := by omega
        have e : x - a = (x - (a + 1)) + 1 := by omega
        rw [if_pos hin, if_pos h2, e, pow_succ', Nat.div_div_eq_div_mul]
      · have h2 : ¬ (a ≤ x ∧ x < a + (n + 1)) := by omega
        rw [if_neg hin, if_neg hxa, if_neg h2]

theorem load_le_congr (h1 h2 : Heap) (n : Nat) : ∀ a : Nat,
    (∀ x, a ≤ x → x < a + n → load8 h1 x = load8 h2 x) → load_le h1 a n = load_le h2 a n := by
  induction n with
  | zero => intro a _; rfl
  | succ n ih =>
    intro a hx
    simp only [load_le]
    rw [hx a (by omega) (by omega), ih (a + 1) (fun x hx1 hx2 => hx x (by omega) (by omega))]

theorem load_le_of_bytes (h : Heap) (n : Nat) : ∀ (a v : Nat),
    (∀ k, k < n → load8 h (a + k) = (v / 256 ^ k) % 256) → load_le h a n = v % 256 ^ n := by
  induction n with
  | zero => intro a v _; simp [load_le, Nat.mod_one]
  | succ n ih =>
    intro a v hb
    simp only [load_le]
    have h0 := hb 0 (by omega)
    simp only [Nat.add_zero, pow_zero, Nat.div_one] at h0
    rw [h0, ih (a + 1) (v / 256), pow_succ', Nat.mod_mul]
    intro k hk
    have := hb (k + 1) (by omega)
    rw [show a + 1 + k = a + (k + 1) by omega, this, pow_succ', Nat.div_div_eq_div_mul]

theorem load_le_store_le_same (h : Heap) (a n v : Nat) :
    load_le (store_le h a n v) a n = v % 256 ^ n := by
  apply load_le_of_bytes
  intro k hk
  rw [load8_store_le]
  have : a ≤ a + k ∧ a + k < a + n := by omega
  rw [if_pos this]
  simp

theorem load_le_store_le_disjoint (h : Heap) (a n v b m : Nat)
    (hd : b + m ≤ a ∨ a + n ≤ b) : load_le (store_le h a n v) b m = load_le h b m := by
  apply load_le_congr
  intro x hx1 hx2
  rw [load8_store_le]
  have : ¬ (a ≤ x ∧ x < a + n) := by omega
  rw [if_neg this]

theorem load_le_store8_disjoint (h : Heap) (a v b m : Nat)
    (hd : a < b ∨ b + m ≤ a) : load_le (store8 h a v) b m = load_le h b m := by
  apply load_le_congr
  intro x hx1 hx2
  rw [load8_store8]
  have : ¬ x = a := by omega
  rw [if_neg this]

theorem load8_xcalloc (h : Heap) (nobj size x : Nat) :
    load8 (xcalloc h nobj size).2 x =
      if h.top + 1 ≤ x ∧ x < h.top + 1 + nobj * size then 0 else load8 h x := by
  unfold load8 xcalloc
  by_cases hx : h.top + 1 ≤ x ∧ x < h.top + 1 + nobj * size <;> simp [hx]

theorem load_le_xcalloc_disjoint (h : Heap) (nobj size b m : Nat)
    (hd : b + m ≤ h.top + 1) : load_le (xcalloc h nobj size).2 b m = load_le h b m := by
  apply load_le_congr
  intro x hx1 hx2
  rw [load8_xcalloc]
  have : ¬ (h.top + 1 ≤ x ∧ x < h.top + 1 + nobj * size) := by omega
  rw [if_neg this]

theorem wrap32_toU32 (x : Int) : wrap32 (toU32 x) = wrap32 x := by
  unfold wrap32 toU32
  omega

theorem toU32_lt (x : Int) : toU32 x < 4294967296 := by
  unfold toU32
  omega

/-- The descriptor written by NEWARRAY holds the count that was popped. -/
theorem newarray_heap_count (H : Heap) (n : Int) (sz : Nat) :
    c0_array_count (newarray_heap H n sz) (H.top + 1) = wrap32 n := by
  unfold c0_array_count newarray_heap load_int store_ptr store_int
  simp only [xcalloc, sizeof_c0_array]
  rw [load_le_store_le_disjoint _ _ _ _ _ _ (by omega)]
  have key : ∀ (hh : Heap) (k m : Nat), hh.top = H.top + 16 →
      load_le { mem := fun x => if hh.top + 1 ≤ x ∧ x < hh.top + 1 + k * m then 0 else hh.mem x,
                top := hh.top + max (k * m) 1 } (H.top + 1) 4 = load_le hh (H.top + 1) 4 := by
    intro hh k m htop
    exact load_le_xcalloc_disjoint hh k m (H.top + 1) 4 (by omega)
  rw [key _ _ _ (by simp [store8, store_le_top])]
  rw [load_le_store8_disjoint _ _ _ _ _ (by omega), load_le_store_le_same]
  have := toU32_lt n
  rw [show (256 : Nat) ^ 4 = 4294967296 by norm_num, Nat.mod_eq_of_lt this, wrap32_toU32]

/-! ## C7, C8: NEWARRAY, ARRAYLENGTH, AADDS -/

/-- The step of NEWARRAY on a count that is not negative. -/
theorem newarray_step (bc0 : bc0_file) (nft : Nat → Option native_fn) (s : State)
    (sz : Nat) (n : Int) (rest : List c0_value)
    (hop : ubyte_at s.P s.pc = some opcode.NEWARRAY.byte)
    (h1 : ubyte_at s.P (s.pc + 1) = some sz) (hS : s.S = int2val n :: rest) (hn : 0 ≤ n) :
    step bc0 nft s = .running
      { s with pc := s.pc + 2, S := ptr2val (s.H.top + 1) :: rest,
               H := newarray_heap s.H n sz } := by
  rw [step_eq_exec bc0 nft s _ hop]
  have hneg : ¬ n < 0 := by omega
  simp only [exec, h1, hS, int2val, val2int, if_neg hneg]
  rfl

/-- The step of NEWARRAY on a negative count. -/
theorem newarray_trap (bc0 : bc0_file) (nft : Nat → Option native_fn) (s : State)
    (sz : Nat) (n : Int) (rest : List c0_value)
    (hop : ubyte_at s.P s.pc = some opcode.NEWARRAY.byte)
    (h1 : ubyte_at s.P (s.pc + 1) = some sz) (hS : s.S = int2val n :: rest) (hn : n < 0) :
    step bc0 nft s = .aborted (.c0_memory_error "Abort execution -> Invalid negative!")
      { s with pc := s.pc + 2, S := rest } := by
  rw [step_eq_exec bc0 nft s _ hop]
  simp only [exec, h1, hS, int2val, val2int, if_pos hn]

/-- The step of AADDS on a descriptor that is not null. -/
theorem aadds_step (bc0 : bc0_file) (nft : Nat → Option native_fn) (t : State)
    (i : Int) (d : Nat) (rest : List c0_value)
    (hop : ubyte_at t.P t.pc = some opcode.AADDS.byte)
    (hS : t.S = int2val i :: ptr2val d :: rest) (hd : d ≠ 0) :
    step bc0 nft t =
      if i < 0 ∨ i ≥ c0_array_count t.H d then
        .aborted (.c0_memory_error "Not a valid index") { t with pc := t.pc + 1, S := rest }
      else
        .running { t with
          pc := t.pc + 1,
          S := ptr2val (size_add (c0_array_elems t.H d)
                 (wrap32 ((c0_array_elt_size t.H d : Int) * i))) :: rest } := by
  rw [step_eq_exec bc0 nft t _ hop]
  simp only [exec, hS, int2val, ptr2val, val2int, val2ptr, if_neg hd]

/-- The step of ARRAYLENGTH on a descriptor that is not null. -/
theorem arraylength_step (bc0 : bc0_file) (nft : Nat → Option native_fn) (t : State)
    (d : Nat) (rest : List c0_value)
    (hop : ubyte_at t.P t.pc = some opcode.ARRAYLENGTH.byte)
    (hS : t.S = ptr2val d :: rest) (hd : d ≠ 0) :
    step bc0 nft t =
      .running { t with pc := t.pc + 1, S := int2val (c0_array_count t.H d) :: rest } := by
  rw [step_eq_exec bc0 nft t _ hop]
  simp only [exec, hS, ptr2val, val2ptr, if_neg hd]

/-- C8: for a 32-bit signed `n` on top of the operand stack, NEWARRAY with
element size `sz` ends in a memory trap if `n < 0`; if `n >= 0` it replaces `n`
by a descriptor pointer `d` that is not null, and in the heap it leaves,
ARRAYLENGTH applied to `d` pushes exactly `n`. -/
theorem C8_newarray_arraylength (bc0 : bc0_file) (nft : Nat → Option native_fn) (s : State)
    (sz : Nat) (n : Int) (rest : List c0_value)
    (hop : ubyte_at s.P s.pc = some opcode.NEWARRAY.byte)
    (h1 : ubyte_at s.P (s.pc + 1) = some sz) (hn : isInt32 n)
    (hS : s.S = int2val n :: rest) :
    (n < 0 → (step bc0 nft s).is_memory_trap = true) ∧
    (0 ≤ n → ∃ (d : Nat) (Hn : Heap), d ≠ 0 ∧
      step bc0 nft s = .running { s with pc := s.pc + 2, S := ptr2val d :: rest, H := Hn } ∧
      ∀ (t : State) (rest1 : List c0_value),
        ubyte_at t.P t.pc = some opcode.ARRAYLENGTH.byte → t.H = Hn →
        t.S = ptr2val d :: rest1 →
        step bc0 nft t = .running { t with pc := t.pc + 1, S := int2val n :: rest1 }) := by
  constructor
  · intro hneg
    rw [newarray_trap bc0 nft s sz n rest hop h1 hS hneg]
    rfl
  · intro hpos
    refine ⟨s.H.top + 1, newarray_heap s.H n sz, by omega,
      newarray_step bc0 nft s sz n rest hop h1 hS hpos, ?_⟩
    intro t rest1 htop htH htS
    have hcnt : c0_array_count t.H (s.H.top + 1) = n := by
      rw [htH, newarray_heap_count, wrap32_of_range n hn]
    rw [arraylength_step bc0 nft t (s.H.top + 1) rest1 htop htS (by omega), hcnt]

/-- C8 at `n = 3`, `sz = 4` (the first two instructions of scenario S5, started
on the zero heap): NEWARRAY yields a non-null descriptor whose length is 3. -/
theorem C8_newarray_arraylength_witness :
    isInt32 3 ∧
    ∃ (d : Nat) (Hn : Heap), d ≠ 0 ∧
      step S5_bc0 no_natives
          { S := [int2val 3], P := S5_code, pc := 2, V := [], callStack := [], H := zero_heap }
        = .running { S := [ptr2val d], P := S5_code, pc := 4, V := [], callStack := [],
                     H := Hn } ∧
      ∀ (t : State) (rest1 : List c0_value),
        ubyte_at t.P t.pc = some opcode.ARRAYLENGTH.byte → t.H = Hn →
        t.S = ptr2val d :: rest1 →
        step S5_bc0 no_natives t = .running { t with pc := t.pc + 1, S := int2val 3 :: rest1 } :=
  ⟨by decide,
   (C8_newarray_arraylength S5_bc0 no_natives
      { S := [int2val 3], P := S5_code, pc := 2, V := [], callStack := [], H := zero_heap }
      4 3 [] (by decide) (by decide) (by decide) rfl).2 (by decide)⟩

theorem S6_trap (nft : Nat → Option native_fn) (H : Heap) (junk : Nat → c0_value) :
    execute S6_bc0 nft 2 H junk = .aborted (.c0_memory_error "Null memory error")
      { S := [], P := S6_code, pc := 2, V := [], callStack := [], H := H } := by
  simp [execute, init, run, S6_bc0, S6_code, step, exec, ubyte_at, ins, opcode.byte, decode,
    opcode.all, ptr2val, val2ptr]

/-- C9: when the pointer operand `v` of IMLOAD, IMSTORE, AMLOAD, AMSTORE, CMLOAD,
CMSTORE, AADDF, ARRAYLENGTH or AADDS is the null pointer, the step ends in a
memory trap; in the state reached the operands are popped, nothing is pushed
and the heap is the one before the step (no load or store happened).
Scenario S6 ends in a memory trap. -/
theorem C9_null_pointer (bc0 : bc0_file) (nft : Nat → Option native_fn) (s : State)
    (v x : c0_value) (rest : List c0_value) (hv : val2ptr v = 0) :
    (ubyte_at s.P s.pc = some opcode.IMLOAD.byte → s.S = v :: rest →
      step bc0 nft s = .aborted (.c0_memory_error "Null memory error")
        { s with pc := s.pc + 1, S := rest }) ∧
    (ubyte_at s.P s.pc = some opcode.IMSTORE.byte → s.S = x :: v :: rest →
      step bc0 nft s = .aborted (.c0_memory_error "Null memory error")
        { s with pc := s.pc + 1, S := rest }) ∧
    (ubyte_at s.P s.pc = some opcode.AMLOAD.byte → s.S = v :: rest →
      step bc0 nft s = .aborted (.c0_memory_error "Null memory error")
        { s with pc := s.pc + 1, S := rest }) ∧
    (ubyte_at s.P s.pc = some opcode.AMSTORE.byte → s.S = x :: v :: rest →
      step bc0 nft s = .aborted (.c0_memory_error "Null memory error")
        { s with pc := s.pc + 1, S := rest }) ∧
    (ubyte_at s.P s.pc = some opcode.CMLOAD.byte → s.S = v :: rest →
      step bc0 nft s = .aborted (.c0_memory_error "Null memory error")
        { s with pc := s.pc + 1, S := rest }) ∧
    (ubyte_at s.P s.pc = some opcode.CMSTORE.byte → s.S = x :: v :: rest →
      step bc0 nft s = .aborted (.c0_memory_error "Null memory error")
        { s with pc := s.pc + 1, S := rest }) ∧
    (ubyte_at s.P s.pc = some opcode.AADDF.byte → (ubyte_at s.P (s.pc + 1)).isSome = true →
      s.S = v :: rest →
      step bc0 nft s = .aborted (.c0_memory_error "Null memory error")
        { s with pc := s.pc + 1, S := rest }) ∧
    (ubyte_at s.P s.pc = some opcode.ARRAYLENGTH.byte → s.S = v :: rest →
      step bc0 nft s = .aborted (.c0_memory_error "Null memory error")
        { s with pc := s.pc + 1, S := rest }) ∧
    (ubyte_at s.P s.pc = some opcode.AADDS.byte → s.S = x :: v :: rest →
      step bc0 nft s = .aborted (.c0_memory_error "Null memory error")
        { s with pc := s.pc + 1, S := rest }) ∧
    (∀ (nft1 : Nat → Option native_fn) (fuel : Nat) (H : Heap) (junk : Nat → c0_value),
      2 ≤ fuel → (execute S6_bc0 nft1 fuel H junk).is_memory_trap = true) := by
  refine ⟨?_, ?_, ?_, ?_, ?_, ?_, ?_, ?_, ?_, ?_⟩
  · intro h hS
    rw [step_eq_exec bc0 nft s _ h]
    simp only [exec, hS, hv, if_true]
  · intro h hS
    rw [step_eq_exec bc0 nft s _ h]
    simp only [exec, hS, hv, if_true]
  · intro h hS
    rw [step_eq_exec bc0 nft s _ h]
    simp only [exec, hS, hv, if_true]
  · intro h hS
    rw [step_eq_exec bc0 nft s _ h]
    simp only [exec, hS, hv, if_true]
  · intro h hS
    rw [step_eq_exec bc0 nft s _ h]
    simp only [exec, hS, hv, if_true]
  · intro h hS
    rw [step_eq_exec bc0 nft s _ h]
    simp only [exec, hS, hv, if_true]
  · intro h hf hS
    rw [step_eq_exec bc0 nft s _ h]
    obtain ⟨f, hf1⟩ := Option.isSome_iff_exists.mp hf
    simp only [exec, hS, hf1, hv, if_true]
  · intro h hS
    rw [step_eq_exec bc0 nft s _ h]
    simp only [exec, hS, hv, if_true]
  · intro h hS
    rw [step_eq_exec bc0 nft s _ h]
    simp only [exec, hS, hv, if_true]
  · intro nft1 fuel H junk hf
    have e := S6_trap nft1 H junk
    rw [execute_of_le S6_bc0 nft1 H junk 2 fuel hf (by rw [e]; rfl), e]
    rfl

/-- C9 at the IMLOAD of scenario S6: the null pointer pushed by ACONST_NULL is
popped and the step traps. -/
theorem C9_null_pointer_witness :
    val2ptr (ptr2val 0) = 0 ∧
    step S6_bc0 no_natives
        { S := [ptr2val 0], P := S6_code, pc := 1, V := [], callStack := [], H := zero_heap }
      = .aborted (.c0_memory_error "Null memory error")
          { S := [], P := S6_code, pc := 2, V := [], callStack := [], H := zero_heap } :=
  ⟨rfl,
   (C9_null_pointer S6_bc0 no_natives
      { S := [ptr2val 0], P := S6_code, pc := 1, V := [], callStack := [], H := zero_heap }
      (ptr2val 0) (ptr2val 0) [] rfl).1 (by decide) rfl⟩

/-! ## C10: NEW -/

/-- C10 fails on the code: NEW takes its block from `xmalloc` and never writes
to it, so the block holds whatever the store held.  On a store of `0xFF` bytes
the program `NEW 4; IMLOAD; RETURN` returns -1, `NEW 4; CMLOAD; RETURN` returns
-1 and `NEW 8; AMLOAD` pushes the pointer `0xFFFFFFFFFFFFFFFF`, where the claim
requires 0, 0 and the null pointer. -/
theorem C10_new_block_not_zeroed :
    (∀ (bc0 : bc0_file) (nft : Nat → Option native_fn) (b : Nat) (s : State),
      (exec bc0 nft b .NEW s).state.elim True (fun t => t.H.mem = s.H.mem)) ∧
    (execute (NEW_load_bc0 .IMLOAD) no_natives 3 dirty_heap zero_junk).exit_value = some (-1) ∧
    (execute (NEW_load_bc0 .CMLOAD) no_natives 3 dirty_heap zero_junk).exit_value = some (-1) ∧
    ((execute NEW8_AMLOAD_bc0 no_natives 2 dirty_heap zero_junk).state.map (fun t => t.S)
      = some [ptr2val 18446744073709551615]) := by
  refine ⟨?_, by decide, by decide, by decide⟩
  intro bc0 nft b s
  simp only [exec]
  cases ubyte_at s.P (s.pc + 1) with
  | none => trivial
  | some sz => rfl

/-! ## C11: CMSTORE and CMLOAD -/

theorem mask7_eq (x : Int) : ((toU32 x &&& 0x7f : Nat) : Int) = x % 128 := by
  have h : toU32 x &&& 0x7f = toU32 x % 2 ^ 7 := Nat.and_pow_two_sub_one_eq_mod (toU32 x) 7
  rw [h]
  unfold toU32
  omega

theorem mask7_lt (x : Int) : toU32 x &&& 0x7f < 128 := by
  have h : toU32 x &&& 0x7f = toU32 x % 2 ^ 7 := Nat.and_pow_two_sub_one_eq_mod (toU32 x) 7
  rw [h]
  omega

theorem int_and_7f (x : Int) : int_and x 0x7f = x % 128 := by
  unfold int_and
  have h127 : toU32 0x7f = 0x7f := by decide
  rw [h127, mask7_eq]
  unfold wrap32
  omega

/-- The step of CMSTORE through an address that is not null. -/
theorem cmstore_step (bc0 : bc0_file) (nft : Nat → Option native_fn) (s : State)
    (x : Int) (p : Nat) (rest : List c0_value)
    (hop : ubyte_at s.P s.pc = some opcode.CMSTORE.byte)
    (hS : s.S = int2val x :: ptr2val p :: rest) (hp : p ≠ 0) :
    step bc0 nft s = .running
      { s with pc := s.pc + 1, S := rest, H := store8 s.H p (toU32 x &&& 0x7f) } := by
  rw [step_eq_exec bc0 nft s _ hop]
  simp only [exec, hS, int2val, ptr2val, val2int, val2ptr, if_neg hp]

/-- The step of CMLOAD through an address that is not null. -/
theorem cmload_step (bc0 : bc0_file) (nft : Nat → Option native_fn) (t : State)
    (p : Nat) (rest : List c0_value)
    (hop : ubyte_at t.P t.pc = some opcode.CMLOAD.byte)
    (hS : t.S = ptr2val p :: rest) (hp : p ≠ 0) :
    step bc0 nft t = .running
      { t with pc := t.pc + 1, S := int2val (load_char t.H p) :: rest } := by
  rw [step_eq_exec bc0 nft t _ hop]
  simp only [exec, hS, ptr2val, val2ptr, if_neg hp]

theorem load_char_store8_mask (h : Heap) (p : Nat) (x : Int) :
    load_char (store8 h p (toU32 x &&& 0x7f)) p = x % 128 := by
  unfold load_char
  rw [load8_store8, if_pos rfl]
  have hlt := mask7_lt x
  have hmod : (toU32 x &&& 0x7f) % 256 = toU32 x &&& 0x7f := Nat.mod_eq_of_lt (by omega)
  rw [hmod]
  unfold int8_t
  have hmod2 : (toU32 x &&& 0x7f) % 256 < 128 := by omega
  rw [if_pos hmod2, hmod, mask7_eq]

/-- C11: for an address `p` that is not null and an integer `x`, CMSTORE of `x`
through `p` changes no byte of the store other than the one at `p`, and in the
heap it leaves CMLOAD through `p` pushes `x & 0x7F`, which equals `x mod 128`
and lies in `0..127`. -/
theorem C11_cmstore_cmload (bc0 : bc0_file) (nft : Nat → Option native_fn) (s : State)
    (x : Int) (p : Nat) (rest : List c0_value)
    (hop : ubyte_at s.P s.pc = some opcode.CMSTORE.byte)
    (hS : s.S = int2val x :: ptr2val p :: rest) (hp : p ≠ 0) :
    ∃ Hn : Heap,
      step bc0 nft s = .running { s with pc := s.pc + 1, S := rest, H := Hn } ∧
      (∀ q, q ≠ p → Hn.mem q = s.H.mem q) ∧ Hn.top = s.H.top ∧
      (∀ (t : State) (rest1 : List c0_value),
        ubyte_at t.P t.pc = some opcode.CMLOAD.byte → t.H = Hn → t.S = ptr2val p :: rest1 →
        step bc0 nft t
          = .running { t with pc := t.pc + 1, S := int2val (int_and x 0x7f) :: rest1 }) ∧
      int_and x 0x7f = x % 128 ∧ 0 ≤ int_and x 0x7f ∧ int_and x 0x7f ≤ 127 := by
  refine ⟨store8 s.H p (toU32 x &&& 0x7f), cmstore_step bc0 nft s x p rest hop hS hp,
    ?_, rfl, ?_, int_and_7f x, ?_, ?_⟩
  · intro q hq
    simp [store8, hq]
  · intro t rest1 htop htH htS
    have hl : load_char t.H p = int_and x 0x7f := by
      rw [htH, load_char_store8_mask, int_and_7f]
    rw [cmload_step bc0 nft t p rest1 htop htS hp, hl]
  · rw [int_and_7f]
    omega
  · rw [int_and_7f]
    omega

/-- C11 at `x = -1`, `p = 5` on the zero heap: the byte stored is `0x7F`. -/
theorem C11_cmstore_cmload_witness :
    ∃ Hn : Heap,
      step empty_bc0 no_natives (at_start (ins .CMSTORE []) [int2val (-1), ptr2val 5])
        = .running { at_start (ins .CMSTORE []) [int2val (-1), ptr2val 5] with
                     pc := 1, S := [], H := Hn } ∧
      (∀ q, q ≠ 5 → Hn.mem q = zero_heap.mem q) ∧ Hn.top = zero_heap.top ∧
      (∀ (t : State) (rest1 : List c0_value),
        ubyte_at t.P t.pc = some opcode.CMLOAD.byte → t.H = Hn → t.S = ptr2val 5 :: rest1 →
        step empty_bc0 no_natives t
          = .running { t with pc := t.pc + 1, S := int2val (int_and (-1) 0x7f) :: rest1 }) ∧
      int_and (-1) 0x7f = -1 % 128 ∧ 0 ≤ int_and (-1) 0x7f ∧ int_and (-1) 0x7f ≤ 127 :=
  C11_cmstore_cmload empty_bc0 no_natives
    (at_start (ins .CMSTORE []) [int2val (-1), ptr2val 5]) (-1) 5 [] (by decide) rfl (by decide)

/-! ## C12: the conditions of the conditional branches -/

/-- C12: with `b` popped first and `a` popped second (operand stack
`b :: a :: rest`, top first) and `tgt` the branch target, each conditional
branch removes exactly the two operands and continues at `tgt` if its condition
holds and at `pc + 3` otherwise.  The condition of IF_CMPEQ is `a = b` as values
(so it holds for operands `x, x` and fails for `x, y` with `x ≠ y`), that of
IF_CMPNE is `a ≠ b`, those of IF_ICMPLT, IF_ICMPLE, IF_ICMPGT, IF_ICMPGE are
`a < b`, `a <= b`, `a > b`, `a >= b` on the integers. -/
theorem C12_branch_conditions (bc0 : bc0_file) (nft : Nat → Option native_fn) (s : State)
    (hi lo : Nat) (x y : c0_value) (a b : Int) (rest : List c0_value)
    (h1 : ubyte_at s.P (s.pc + 1) = some hi) (h2 : ubyte_at s.P (s.pc + 2) = some lo) :
    (ubyte_at s.P s.pc = some opcode.IF_CMPEQ.byte → s.S = y :: x :: rest →
      step bc0 nft s = .running { s with
        S := rest,
        pc := if x = y then size_add s.pc (int16_t (256 * hi + lo)) else s.pc + 3 }) ∧
    (ubyte_at s.P s.pc = some opcode.IF_CMPNE.byte → s.S = y :: x :: rest →
      step bc0 nft s = .running { s with
        S := rest,
        pc := if x ≠ y then size_add s.pc (int16_t (256 * hi + lo)) else s.pc + 3 }) ∧
    (ubyte_at s.P s.pc = some opcode.IF_ICMPLT.byte → s.S = int2val b :: int2val a :: rest →
      step bc0 nft s = .running { s with
        S := rest,
        pc := if a < b then size_add s.pc (int16_t (256 * hi + lo)) else s.pc + 3 }) ∧
    (ubyte_at s.P s.pc = some opcode.IF_ICMPLE.byte → s.S = int2val b :: int2val a :: rest →
      step bc0 nft s = .running { s with
        S := rest,
        pc := if a ≤ b then size_add s.pc (int16_t (256 * hi + lo)) else s.pc + 3 }) ∧
    (ubyte_at s.P s.pc = some opcode.IF_ICMPGT.byte → s.S = int2val b :: int2val a :: rest →
      step bc0 nft s = .running { s with
        S := rest,
        pc := if a > b then size_add s.pc (int16_t (256 * hi + lo)) else s.pc + 3 }) ∧
    (ubyte_at s.P s.pc = some opcode.IF_ICMPGE.byte → s.S = int2val b :: int2val a :: rest →
      step bc0 nft s = .running { s with
        S := rest,
        pc := if a ≥ b then size_add s.pc (int16_t (256 * hi + lo)) else s.pc + 3 }) := by
  refine ⟨?_, ?_, ?_, ?_, ?_, ?_⟩
  · intro h hS
    rw [step_eq_exec bc0 nft s _ h]
    simp only [exec, cond_branch_eq s _ hi lo y x rest h1 h2 hS, val_equal, decide_eq_true_eq]
    by_cases hxy : x = y
    · subst hxy
      simp
    · have hyx : ¬ y = x := fun e => hxy e.symm
      simp [hxy, hyx]
  · intro h hS
    rw [step_eq_exec bc0 nft s _ h]
    simp only [exec, cond_branch_eq s _ hi lo y x rest h1 h2 hS, val_equal]
    by_cases hxy : x = y
    · subst hxy
      simp
    · have hyx : ¬ y = x := fun e => hxy e.symm
      simp [hxy, hyx]
  · intro h hS
    rw [step_eq_exec bc0 nft s _ h]
    simp only [exec, cond_branch_eq s _ hi lo _ _ rest h1 h2 hS, decide_eq_true_eq, int2val,
      val2int]
  · intro h hS
    rw [step_eq_exec bc0 nft s _ h]
    simp only [exec, cond_branch_eq s _ hi lo _ _ rest h1 h2 hS, decide_eq_true_eq, int2val,
      val2int]
  · intro h hS
    rw [step_eq_exec bc0 nft s _ h]
    simp only [exec, cond_branch_eq s _ hi lo _ _ rest h1 h2 hS, decide_eq_true_eq, int2val,
      val2int]
  · intro h hS
    rw [step_eq_exec bc0 nft s _ h]
    simp only [exec, cond_branch_eq s _ hi lo _ _ rest h1 h2 hS, decide_eq_true_eq, int2val,
      val2int]

/-- C12 at `IF_ICMPLT` with `a = -1`, `b = 1`, displacement `+7`: the branch is taken,
the comparison being signed. -/
theorem C12_branch_conditions_witness :
    step empty_bc0 no_natives (at_start (ins .IF_ICMPLT [0, 7]) [int2val 1, int2val (-1)])
      = .running { at_start (ins .IF_ICMPLT [0, 7]) [int2val 1, int2val (-1)] with
                   S := [], pc := 7 } :=
  (C12_branch_conditions empty_bc0 no_natives
      (at_start (ins .IF_ICMPLT [0, 7]) [int2val 1, int2val (-1)]) 0 7
      (int2val 0) (int2val 0) (-1) 1 [] (by decide) (by decide)).2.2.1 (by decide) rfl

/-! ## C13: INVOKENATIVE -/

/-- C13: INVOKENATIVE at address `a = pc`, selecting the native_pool entry `n`
with `k = n.num_args`, run on the operand stack `rest ++ [v1, ..., vk]` (top
first: `[vk, ..., v1] ++ rest`), calls `native_function_table[n.function_table_index]`
on the array `[v1, ..., vk]` of exactly `k` entries (index 0 = first argument)
and yields operand stack `rest ++ [result]`, `pc = a + 3`, with call stack,
locals and code unchanged; the heap is the one the native leaves. -/
theorem C13_invokenative (bc0 : bc0_file) (nft : Nat → Option native_fn) (s : State)
    (hi lo : Nat) (n : native_info) (f : native_fn) (args rest : List c0_value)
    (hop : ubyte_at s.P s.pc = some opcode.INVOKENATIVE.byte)
    (h1 : ubyte_at s.P (s.pc + 1) = some hi) (h2 : ubyte_at s.P (s.pc + 2) = some lo)
    (hn : pool_at bc0.native_pool (int16_t (256 * hi + lo)) = some n)
    (hf : nft n.function_table_index = some f)
    (hargs : args.length = n.num_args) (hS : s.S = args.reverse ++ rest) :
    step bc0 nft s = .running
      { S := (f args s.H).1 :: rest, P := s.P, pc := s.pc + 3, V := s.V,
        callStack := s.callStack, H := (f args s.H).2 } := by
  rw [step_eq_exec bc0 nft s _ hop]
  simp only [exec, h1, h2, u16_or hi lo (ubyte_at_lt h1) (ubyte_at_lt h2), hn, hS]
  rw [pop_args_eq n.num_args _ args rest hargs (by simp)]
  simp [hf, hargs]

/-- C13 at a native with one argument that adds one: the argument 41 is replaced
by the result 42. -/
theorem C13_invokenative_witness :
    step native_bc0 succ_natives (at_start (ins .INVOKENATIVE [0, 0]) [int2val 41, int2val 7])
      = .running
          { S := [int2val 42, int2val 7], P := ins .INVOKENATIVE [0, 0], pc := 3, V := [],
            callStack := [], H := zero_heap } :=
  C13_invokenative native_bc0 succ_natives
    (at_start (ins .INVOKENATIVE [0, 0]) [int2val 41, int2val 7]) 0 0
    { num_args := 1, function_table_index := 0 } native_succ [int2val 41] [int2val 7]
    (by decide) (by decide) (by decide) (by decide) rfl rfl rfl

/-! ## C16: division, multiplication and remainder -/

/-- The step of a binary operation that cannot trap, for IADD and IMUL. -/
theorem iadd_step (bc0 : bc0_file) (nft : Nat → Option native_fn) (s : State)
    (a b : Int) (rest : List c0_value)
    (hop : ubyte_at s.P s.pc = some opcode.IADD.byte)
    (hS : s.S = int2val b :: int2val a :: rest) :
    step bc0 nft s = .running { s with pc := s.pc + 1, S := int2val (wrap32 (a + b)) :: rest } := by
  rw [step_eq_exec bc0 nft s _ hop]
  simp only [exec, hS, int2val, val2int]

theorem imul_step (bc0 : bc0_file) (nft : Nat → Option native_fn) (s : State)
    (a b : Int) (rest : List c0_value)
    (hop : ubyte_at s.P s.pc = some opcode.IMUL.byte)
    (hS : s.S = int2val b :: int2val a :: rest) :
    step bc0 nft s = .running { s with pc := s.pc + 1, S := int2val (wrap32 (a * b)) :: rest } := by
  rw [step_eq_exec bc0 nft s _ hop]
  simp only [exec, hS, int2val, val2int]

/-- The step of IDIV when it does not trap. -/
theorem idiv_step (bc0 : bc0_file) (nft : Nat → Option native_fn) (s : State)
    (a b : Int) (rest : List c0_value)
    (hop : ubyte_at s.P s.pc = some opcode.IDIV.byte)
    (hS : s.S = int2val b :: int2val a :: rest)
    (hb0 : b ≠ 0) (hov : ¬ (a = INT32_MIN ∧ b = -1)) :
    step bc0 nft s = .running { s with pc := s.pc + 1, S := int2val (a.tdiv b) :: rest } := by
  rw [step_eq_exec bc0 nft s _ hop]
  simp only [exec, hS, int2val, val2int, if_neg hb0, if_neg hov]

/-- The step of IREM when it does not trap. -/
theorem irem_step (bc0 : bc0_file) (nft : Nat → Option native_fn) (s : State)
    (a b : Int) (rest : List c0_value)
    (hop : ubyte_at s.P s.pc = some opcode.IREM.byte)
    (hS : s.S = int2val b :: int2val a :: rest)
    (hb0 : b ≠ 0) (hov : ¬ (a = INT32_MIN ∧ b = -1)) :
    step bc0 nft s = .running { s with pc := s.pc + 1, S := int2val (a.tmod b) :: rest } := by
  rw [step_eq_exec bc0 nft s _ hop]
  simp only [exec, hS, int2val, val2int, if_neg hb0, if_neg hov]

/-- C16: for a 32-bit signed `a` and `b` with `b ≠ 0` and not (`a = INT32_MIN`
and `b = -1`), let `q` be the value IDIV pushes for operands `(a, b)` and `r` the
value IREM pushes for them.  Then IMUL on `(q, b)` pushes `m = q * b` (32-bit)
and IADD on `(m, r)` pushes `a`: `(a / b) * b + a % b == a` in the machine. -/
theorem C16_div_mul_add_rem (bc0 : bc0_file) (nft : Nat → Option native_fn) (a b : Int)
    (ha : isInt32 a) (hb0 : b ≠ 0) (hov : ¬ (a = INT32_MIN ∧ b = -1)) :
    ∃ q r m : Int,
      (∀ (s : State) (rest : List c0_value), ubyte_at s.P s.pc = some opcode.IDIV.byte →
        s.S = int2val b :: int2val a :: rest →
        step bc0 nft s = .running { s with pc := s.pc + 1, S := int2val q :: rest }) ∧
      (∀ (s : State) (rest : List c0_value), ubyte_at s.P s.pc = some opcode.IREM.byte →
        s.S = int2val b :: int2val a :: rest →
        step bc0 nft s = .running { s with pc := s.pc + 1, S := int2val r :: rest }) ∧
      (∀ (s : State) (rest : List c0_value), ubyte_at s.P s.pc = some opcode.IMUL.byte →
        s.S = int2val b :: int2val q :: rest →
        step bc0 nft s = .running { s with pc := s.pc + 1, S := int2val m :: rest }) ∧
      (∀ (s : State) (rest : List c0_value), ubyte_at s.P s.pc = some opcode.IADD.byte →
        s.S = int2val r :: int2val m :: rest →
        step bc0 nft s = .running { s with pc := s.pc + 1, S := int2val a :: rest }) ∧
      m = wrap32 (q * b) ∧ wrap32 (m + r) = a := by
  have key : wrap32 (wrap32 (a.tdiv b * b) + a.tmod b) = a := by
    have h1 : wrap32 (wrap32 (a.tdiv b * b) + a.tmod b) = wrap32 (a.tdiv b * b + a.tmod b) := by
      apply wrap32_congr
      have := wrap32_emod (a.tdiv b * b)
      omega
    rw [h1, Int.tdiv_add_tmod', wrap32_of_range a ha]
  refine ⟨a.tdiv b, a.tmod b, wrap32 (a.tdiv b * b), ?_, ?_, ?_, ?_, rfl, key⟩
  · intro s rest hop hS
    exact idiv_step bc0 nft s a b rest hop hS hb0 hov
  · intro s rest hop hS
    exact irem_step bc0 nft s a b rest hop hS hb0 hov
  · intro s rest hop hS
    exact imul_step bc0 nft s (a.tdiv b) b rest hop hS
  · intro s rest hop hS
    rw [iadd_step bc0 nft s _ _ rest hop hS, key]

/-- C16 at `a = -7`, `b = 2`: `q = -3`, `r = -1`, `m = -6` and `-6 + -1 = -7`. -/
theorem C16_div_mul_add_rem_witness :
    isInt32 (-7) ∧ (2 : Int) ≠ 0 ∧ ¬ ((-7 : Int) = INT32_MIN ∧ (2 : Int) = -1) ∧
    ∃ q r m : Int,
      (∀ (s : State) (rest : List c0_value), ubyte_at s.P s.pc = some opcode.IDIV.byte →
        s.S = int2val 2 :: int2val (-7) :: rest →
        step empty_bc0 no_natives s
          = .running { s with pc := s.pc + 1, S := int2val q :: rest }) ∧
      (∀ (s : State) (rest : List c0_value), ubyte_at s.P s.pc = some opcode.IREM.byte →
        s.S = int2val 2 :: int2val (-7) :: rest →
        step empty_bc0 no_natives s
          = .running { s with pc := s.pc + 1, S := int2val r :: rest }) ∧
      (∀ (s : State) (rest : List c0_value), ubyte_at s.P s.pc = some opcode.IMUL.byte →
        s.S = int2val 2 :: int2val q :: rest →
        step empty_bc0 no_natives s
          = .running { s with pc := s.pc + 1, S := int2val m :: rest }) ∧
      (∀ (s : State) (rest : List c0_value), ubyte_at s.P s.pc = some opcode.IADD.byte →
        s.S = int2val r :: int2val m :: rest →
        step empty_bc0 no_natives s
          = .running { s with pc := s.pc + 1, S := int2val (-7) :: rest }) ∧
      m = wrap32 (q * 2) ∧ wrap32 (m + r) = -7 :=
  ⟨by decide, by decide, by decide,
   C16_div_mul_add_rem empty_bc0 no_natives (-7) 2 (by decide) (by decide) (by decide)⟩

/-! ## C17: reserved and unknown opcodes -/

theorem decode_some (b : Nat) (op : opcode) (h : decode b = some op) : op.byte = b := by
  unfold decode at h
  have := List.find?_some h
  simpa using this

/-- C17: when the byte `b` at `P[pc]` is not the value of an implemented opcode,
that is, it is the value of one of CHECKTAG, HASTAG, ADDTAG, ADDROF_STATIC,
ADDROF_NATIVE, INVOKEDYNAMIC or of no case label at all, the step stops with the
invalid-opcode error in the unchanged state: nothing is popped, pushed or
stored and `pc` is not changed. -/
theorem C17_invalid_opcode (bc0 : bc0_file) (nft : Nat → Option native_fn) (s : State)
    (b : Nat) (hb : ubyte_at s.P s.pc = some b)
    (hinv : ∀ op : opcode, op ∉ opcode.reserved → op.byte ≠ b) :
    step bc0 nft s = .aborted (.invalid_opcode b) s := by
  unfold step
  rw [hb]
  cases hd : decode b with
  | none => simp only [hd]
  | some op =>
    have hbyte := decode_some b op hd
    have hmem : op ∈ opcode.reserved := by
      by_contra hcon
      exact hinv op hcon hbyte
    simp only [opcode.reserved, List.mem_cons, List.mem_singleton, List.not_mem_nil,
      or_false] at hmem
    rcases hmem with h | h | h | h | h | h <;> subst h <;> simp only [hd, exec]

/-- C17 at the byte `0xC0` of CHECKTAG, with a value on the operand stack. -/
theorem C17_invalid_opcode_witness :
    step empty_bc0 no_natives (at_start (ins .CHECKTAG []) [int2val 1])
      = .aborted (.invalid_opcode 0xC0) (at_start (ins .CHECKTAG []) [int2val 1]) :=
  C17_invalid_opcode empty_bc0 no_natives (at_start (ins .CHECKTAG []) [int2val 1]) 0xC0
    (by decide)
    (by
      intro op hop
      cases op <;> first
        | (intro h; exact absurd h (by decide))
        | (exact absurd (by decide) hop))

/-! ## C15: GOTO loops -/

/-- The step of GOTO. -/
theorem goto_step (bc0 : bc0_file) (nft : Nat → Option native_fn) (s : State) (hi lo : Nat)
    (hop : ubyte_at s.P s.pc = some opcode.GOTO.byte)
    (h1 : ubyte_at s.P (s.pc + 1) = some hi) (h2 : ubyte_at s.P (s.pc + 2) = some lo) :
    step bc0 nft s = .running { s with pc := size_add s.pc (int16_t (256 * hi + lo)) } := by
  rw [step_eq_exec bc0 nft s _ hop]
  simp only [exec, h1, h2, shl8_or hi lo (ubyte_at_lt h2), branch_pc]

/-- C15, as stated, fails: the GOTO at address 3 with displacement `-3` is not
a self-loop, after one step the machine is at address 0. -/
theorem C15_counterexample :
    ubyte_at goto_back3_state.P goto_back3_state.pc = some opcode.GOTO.byte ∧
    ubyte_at goto_back3_state.P (goto_back3_state.pc + 1) = some 0xFF ∧
    ubyte_at goto_back3_state.P (goto_back3_state.pc + 2) = some 0xFD ∧
    int16_t (256 * 0xFF + 0xFD) = -3 ∧
    (run empty_bc0 no_natives 1 goto_back3_state).state.map (fun t => t.pc) = some 0 ∧
    (run empty_bc0 no_natives 1 goto_back3_state).state.map (fun t => t.pc)
      ≠ some goto_back3_state.pc := by
  refine ⟨by decide, by decide, by decide, by decide, by decide, by decide⟩

/-- C15 (amended): a GOTO at address `a = pc` whose displacement is 0 is a
self-loop: for every number of steps `n`, after `n` steps the machine is in the
same state (same `pc`, operand stack, locals, code, call stack and heap).  A
GOTO at `a >= 3` whose displacement is `-3` continues at `a - 3`. -/
theorem C15_goto_self_loop (bc0 : bc0_file) (nft : Nat → Option native_fn) (s : State)
    (hop : ubyte_at s.P s.pc = some opcode.GOTO.byte)
    (hpc : s.pc < 18446744073709551616) :
    (ubyte_at s.P (s.pc + 1) = some 0 → ubyte_at s.P (s.pc + 2) = some 0 →
      ∀ n, run bc0 nft n s = .running s) ∧
    (ubyte_at s.P (s.pc + 1) = some 0xFF → ubyte_at s.P (s.pc + 2) = some 0xFD → 3 ≤ s.pc →
      step bc0 nft s = .running { s with pc := s.pc - 3 }) := by
  constructor
  · intro h1 h2 n
    have hstep : step bc0 nft s = .running s := by
      rw [goto_step bc0 nft s 0 0 hop h1 h2]
      have e : size_add s.pc (int16_t (256 * 0 + 0)) = s.pc := by
        have hz : int16_t (256 * 0 + 0) = 0 := by decide
        rw [hz]
        unfold size_add
        omega
      rw [e]
    induction n with
    | zero => rfl
    | succ n ih => rw [run_step bc0 nft s s n hstep, ih]
  · intro h1 h2 h3
    rw [goto_step bc0 nft s 0xFF 0xFD hop h1 h2]
    have e : size_add s.pc (int16_t (256 * 0xFF + 0xFD)) = s.pc - 3 := by
      have hz : int16_t (256 * 0xFF + 0xFD) = -3 := by decide
      rw [hz]
      unfold size_add
      omega
    rw [e]

/-- C15 (amended) at a GOTO with displacement 0 at address 0: after 1000 steps
the state is the one it started in. -/
theorem C15_goto_self_loop_witness :
    run empty_bc0 no_natives 1000 goto_self_state = .running goto_self_state :=
  (C15_goto_self_loop empty_bc0 no_natives goto_self_state (by decide) (by decide)).1
    (by decide) (by decide) 1000

/-! ## C18: the pool index of INVOKESTATIC and INVOKENATIVE -/

theorem wide_function_pool_last :
    wide_function_pool[256 * 0x80 + 0]?
      = some { num_args := 0, num_vars := 0, code := ins .BIPUSH [2] ++ ins .RETURN [] } := by
  unfold wide_function_pool
  rw [List.getElem?_append_right (by rw [List.length_replicate])]
  rw [List.length_replicate]
  rfl

theorem wide_native_pool_last :
    wide_native_pool[256 * 0x80 + 0]? = some { num_args := 0, function_table_index := 7 } := by
  unfold wide_native_pool
  rw [List.getElem?_append_right (by rw [List.length_replicate])]
  rw [List.length_replicate]
  rfl

/-- ILDC, whose index is not cast to `int16_t`, reads index 32768 of its pool for
the operand bytes `0x80 0x00`. -/
theorem ildc_wide_index (bc0 : bc0_file) (nft : Nat → Option native_fn) :
    step bc0 nft (at_start (ins .ILDC [0x80, 0]) [])
      = match bc0.int_pool[32768]? with
        | some v => .running { at_start (ins .ILDC [0x80, 0]) [] with pc := 3, S := [int2val v] }
        | none => .image_error := by
  rw [step_eq_exec bc0 nft _ .ILDC (by decide)]
  have h1 : ubyte_at (at_start (ins .ILDC [0x80, 0]) []).P
      ((at_start (ins .ILDC [0x80, 0]) []).pc + 1) = some 0x80 := by decide
  have h2 : ubyte_at (at_start (ins .ILDC [0x80, 0]) []).P
      ((at_start (ins .ILDC [0x80, 0]) []).pc + 2) = some 0 := by decide
  have hidx : (0x80 <<< 8) ||| 0 = 32768 := by decide
  simp only [exec, h1, h2, hidx]
  cases bc0.int_pool[32768]? <;> rfl

/-- INVOKESTATIC and INVOKENATIVE with the operand bytes `0x80 0x00` find no pool
entry, whatever the image. -/
theorem invoke_wide_index (bc0 : bc0_file) (nft : Nat → Option native_fn) :
    step bc0 nft (at_start (ins .INVOKESTATIC [0x80, 0]) []) = .image_error ∧
    step bc0 nft (at_start (ins .INVOKENATIVE [0x80, 0]) []) = .image_error := by
  have hidx : int16_t (((0x80 <<< 8) % 65536) ||| 0) = -32768 := by decide
  constructor
  · rw [step_eq_exec bc0 nft _ .INVOKESTATIC (by decide)]
    have h1 : ubyte_at (at_start (ins .INVOKESTATIC [0x80, 0]) []).P
        ((at_start (ins .INVOKESTATIC [0x80, 0]) []).pc + 1) = some 0x80 := by decide
    have h2 : ubyte_at (at_start (ins .INVOKESTATIC [0x80, 0]) []).P
        ((at_start (ins .INVOKESTATIC [0x80, 0]) []).pc + 2) = some 0 := by decide
    simp only [exec, h1, h2, hidx, pool_at]
    rfl
  · rw [step_eq_exec bc0 nft _ .INVOKENATIVE (by decide)]
    have h1 : ubyte_at (at_start (ins .INVOKENATIVE [0x80, 0]) []).P
        ((at_start (ins .INVOKENATIVE [0x80, 0]) []).pc + 1) = some 0x80 := by decide
    have h2 : ubyte_at (at_start (ins .INVOKENATIVE [0x80, 0]) []).P
        ((at_start (ins .INVOKENATIVE [0x80, 0]) []).pc + 2) = some 0 := by decide
    simp only [exec, h1, h2, hidx, pool_at]
    rfl

/-- C18 fails on the code for operands with `hi >= 0x80`: the index is cast to
`int16_t`, so the bytes `0x80 0x00` give `-32768`, not `32768`.  In an image whose
pools have an entry at index 32768 (as in any other image), INVOKESTATIC and
INVOKENATIVE with these operand bytes do not select that entry;
`function_pool + c3` and `native_pool + c3` point in front of the pools, while
ILDC, which keeps the index in an `int`, reads index 32768 of its pool.  The index is negative for
exactly the operands with `hi >= 0x80`. -/
theorem C18_index_is_signed :
    wide_bc0.function_pool[256 * 0x80 + 0]?
      = some { num_args := 0, num_vars := 0, code := ins .BIPUSH [2] ++ ins .RETURN [] } ∧
    wide_bc0.native_pool[256 * 0x80 + 0]? = some { num_args := 0, function_table_index := 7 } ∧
    int16_t (256 * 0x80 + 0) = -32768 ∧
    pool_at wide_bc0.function_pool (int16_t (256 * 0x80 + 0)) = none ∧
    pool_at wide_bc0.native_pool (int16_t (256 * 0x80 + 0)) = none ∧
    (∀ (bc0 : bc0_file) (nft : Nat → Option native_fn),
      step bc0 nft (at_start (ins .INVOKESTATIC [0x80, 0]) []) = .image_error ∧
      step bc0 nft (at_start (ins .INVOKENATIVE [0x80, 0]) []) = .image_error ∧
      step bc0 nft (at_start (ins .ILDC [0x80, 0]) [])
        = match bc0.int_pool[32768]? with
          | some v =>
            .running { at_start (ins .ILDC [0x80, 0]) [] with pc := 3, S := [int2val v] }
          | none => .image_error) ∧
    (∀ hi ∈ List.range 256, ∀ lo ∈ List.range 256,
      (int16_t (256 * hi + lo) < 0 ↔ 0x80 ≤ hi) ∧
      (hi < 0x80 → int16_t (256 * hi + lo) = ((256 * hi + lo : Nat) : Int))) := by
  refine ⟨wide_function_pool_last, wide_native_pool_last, by decide, by decide, by decide,
    fun bc0 nft => ⟨(invoke_wide_index bc0 nft).1, (invoke_wide_index bc0 nft).2,
      ildc_wide_index bc0 nft⟩, ?_⟩
  intro hi hhi lo hlo
  have h1 : hi < 256 := List.mem_range.mp hhi
  have h2 : lo < 256 := List.mem_range.mp hlo
  unfold int16_t
  constructor
  · split <;> omega
  · intro h3
    split <;> omega

/-! ## C19: the element address of AADDS -/

/-- AADDS pushes the exact element address as long as the product
`elt_size * i` stays below 2^31 and the address fits in 64 bits. -/
theorem aadds_small_product (bc0 : bc0_file) (nft : Nat → Option native_fn) (t : State)
    (i : Nat) (d : Nat) (rest : List c0_value)
    (hop : ubyte_at t.P t.pc = some opcode.AADDS.byte)
    (hS : t.S = int2val (i : Int) :: ptr2val d :: rest) (hd : d ≠ 0)
    (hi : (i : Int) < c0_array_count t.H d)
    (hprod : c0_array_elt_size t.H d * i < 2147483648)
    (hfit : c0_array_elems t.H d + c0_array_elt_size t.H d * i < 18446744073709551616) :
    step bc0 nft t = .running
      { t with pc := t.pc + 1,
               S := ptr2val (c0_array_elems t.H d + c0_array_elt_size t.H d * i) :: rest } := by
  rw [aadds_step bc0 nft t i d rest hop hS hd]
  have hc : ¬ ((i : Int) < 0 ∨ (i : Int) ≥ c0_array_count t.H d) := by omega
  rw [if_neg hc]
  have hw : wrap32 ((c0_array_elt_size t.H d : Int) * (i : Int))
      = ((c0_array_elt_size t.H d * i : Nat) : Int) := by
    rw [← Nat.cast_mul]
    unfold wrap32
    omega
  rw [hw, size_add_nat _ _ hfit]

/-- C19 fails on the code: the product `a->elt_size * i` is computed in 32 bits.
For the array of 33554433 elements of 128 bytes that NEWARRAY creates
(descriptor at address 1, elements from address 17), the index 33554432 is in
range and the exact element address is `17 + 33554432 * 128 = 4294967313`; the
product `2^32` wraps to 0 and AADDS pushes the address 17, the address it
pushes for the index 0. -/
theorem C19_aadds_product_wraps :
    step empty_bc0 no_natives big_newarray_state
      = .running { big_newarray_state with pc := 2, S := [ptr2val 1], H := big_array_heap } ∧
    c0_array_count big_array_heap 1 = 33554433 ∧
    c0_array_elt_size big_array_heap 1 = 128 ∧
    c0_array_elems big_array_heap 1 = 17 ∧
    ((0 : Int) ≤ 33554432 ∧ (33554432 : Int) < 33554433) ∧
    wrap32 (128 * 33554432) = 0 ∧
    (step empty_bc0 no_natives (big_aadds_state 33554432)).state.map (fun t => t.S)
      = some [ptr2val 17] ∧
    (step empty_bc0 no_natives (big_aadds_state 0)).state.map (fun t => t.S)
      = some [ptr2val 17] ∧
    (step empty_bc0 no_natives (big_aadds_state 33554432)).state.map (fun t => t.S)
      ≠ some [ptr2val (17 + 33554432 * 128)] := by
  refine ⟨?_, by decide, by decide, by decide, by decide, by decide, by decide, by decide,
    by decide⟩
  exact newarray_step empty_bc0 no_natives big_newarray_state 128 33554433 [] (by decide)
    (by decide) rfl (by decide)

/-! ## C14: scenario S7 -/

theorem load_int_store_int_same (h : Heap) (a : Nat) (x : Int) :
    load_int (store_int h a x) a = wrap32 x := by
  unfold load_int store_int
  rw [load_le_store_le_same]
  have := toU32_lt x
  rw [show (256 : Nat) ^ 4 = 4294967296 by norm_num, Nat.mod_eq_of_lt this, wrap32_toU32]

/-- The step of NEW. -/
theorem new_step (bc0 : bc0_file) (nft : Nat → Option native_fn) (s : State) (sz : Nat)
    (hop : ubyte_at s.P s.pc = some opcode.NEW.byte)
    (h1 : ubyte_at s.P (s.pc + 1) = some sz) :
    step bc0 nft s = .running
      { s with pc := s.pc + 2, S := ptr2val (s.H.top + 1) :: s.S, H := (xmalloc s.H sz).2 } := by
  rw [step_eq_exec bc0 nft s _ hop]
  simp only [exec, h1]
  rfl

/-- The step of DUP. -/
theorem dup_step (bc0 : bc0_file) (nft : Nat → Option native_fn) (s : State)
    (v : c0_value) (rest : List c0_value)
    (hop : ubyte_at s.P s.pc = some opcode.DUP.byte) (hS : s.S = v :: rest) :
    step bc0 nft s = .running { s with pc := s.pc + 1, S := v :: v :: rest } := by
  rw [step_eq_exec bc0 nft s _ hop]
  simp only [exec, hS]

/-- The step of POP. -/
theorem pop_step (bc0 : bc0_file) (nft : Nat → Option native_fn) (s : State)
    (v : c0_value) (rest : List c0_value)
    (hop : ubyte_at s.P s.pc = some opcode.POP.byte) (hS : s.S = v :: rest) :
    step bc0 nft s = .running { s with pc := s.pc + 1, S := rest } := by
  rw [step_eq_exec bc0 nft s _ hop]
  simp only [exec, hS]

/-- The step of SWAP. -/
theorem swap_step (bc0 : bc0_file) (nft : Nat → Option native_fn) (s : State)
    (first second : c0_value) (rest : List c0_value)
    (hop : ubyte_at s.P s.pc = some opcode.SWAP.byte) (hS : s.S = first :: second :: rest) :
    step bc0 nft s = .running { s with pc := s.pc + 1, S := second :: first :: rest } := by
  rw [step_eq_exec bc0 nft s _ hop]
  simp only [exec, hS]

/-- The step of BIPUSH. -/
theorem bipush_step (bc0 : bc0_file) (nft : Nat → Option native_fn) (s : State) (b1 : Nat)
    (hop : ubyte_at s.P s.pc = some opcode.BIPUSH.byte)
    (h1 : ubyte_at s.P (s.pc + 1) = some b1) :
    step bc0 nft s = .running { s with pc := s.pc + 2, S := int2val (int8_t b1) :: s.S } := by
  rw [step_eq_exec bc0 nft s _ hop]
  simp only [exec, h1]

/-- The step of AADDF on a pointer that is not null. -/
theorem aaddf_step (bc0 : bc0_file) (nft : Nat → Option native_fn) (s : State) (f p : Nat)
    (rest : List c0_value)
    (hop : ubyte_at s.P s.pc = some opcode.AADDF.byte)
    (h1 : ubyte_at s.P (s.pc + 1) = some f) (hS : s.S = ptr2val p :: rest) (hp : p ≠ 0) :
    step bc0 nft s = .running
      { s with pc := s.pc + 2, S := ptr2val (size_add p f) :: rest } := by
  rw [step_eq_exec bc0 nft s _ hop]
  simp only [exec, h1, hS, ptr2val, val2ptr, if_neg hp]

/-- The step of IMSTORE through an address that is not null. -/
theorem imstore_step (bc0 : bc0_file) (nft : Nat → Option native_fn) (s : State)
    (x : Int) (p : Nat) (rest : List c0_value)
    (hop : ubyte_at s.P s.pc = some opcode.IMSTORE.byte)
    (hS : s.S = int2val x :: ptr2val p :: rest) (hp : p ≠ 0) :
    step bc0 nft s = .running { s with pc := s.pc + 1, S := rest, H := store_int s.H p x } := by
  rw [step_eq_exec bc0 nft s _ hop]
  simp only [exec, hS, int2val, ptr2val, val2int, val2ptr, if_neg hp]

/-- The step of IMLOAD through an address that is not null. -/
theorem imload_step (bc0 : bc0_file) (nft : Nat → Option native_fn) (s : State)
    (p : Nat) (rest : List c0_value)
    (hop : ubyte_at s.P s.pc = some opcode.IMLOAD.byte)
    (hS : s.S = ptr2val p :: rest) (hp : p ≠ 0) :
    step bc0 nft s = .running
      { s with pc := s.pc + 1, S := int2val (load_int s.H p) :: rest } := by
  rw [step_eq_exec bc0 nft s _ hop]
  simp only [exec, hS, ptr2val, val2ptr, if_neg hp]

/-- The step of RETURN in function 0, the call stack being empty. -/
theorem return_exit_step (bc0 : bc0_file) (nft : Nat → Option native_fn) (s : State)
    (v : c0_value) (rest : List c0_value)
    (hop : ubyte_at s.P s.pc = some opcode.RETURN.byte)
    (hS : s.S = v :: rest) (hC : s.callStack = []) :
    step bc0 nft s = .returned (val2int v) := by
  rw [step_eq_exec bc0 nft s _ hop]
  simp only [exec, hS, hC]

theorem S7_amended_exit (nft : Nat → Option native_fn) (H : Heap) (junk : Nat → c0_value)
    (hfit : H.top + 5 < 18446744073709551616) :
    execute S7_bc0_amended nft 10 H junk = .returned 5 := by
  have e0 : init S7_bc0_amended H junk
      = some { S := [], P := S7_code_amended, pc := 0, V := [], callStack := [], H := H } := rfl
  have e1 : step S7_bc0_amended nft
      { S := [], P := S7_code_amended, pc := 0, V := [], callStack := [], H := H }
      = .running { S := [ptr2val (H.top + 1)], P := S7_code_amended, pc := 2, V := [],
                   callStack := [], H := (xmalloc H 8).2 } :=
    new_step S7_bc0_amended nft _ 8 rfl rfl
  have e2 : step S7_bc0_amended nft
      { S := [ptr2val (H.top + 1)], P := S7_code_amended, pc := 2, V := [],
        callStack := [], H := (xmalloc H 8).2 }
      = .running { S := [ptr2val (H.top + 1), ptr2val (H.top + 1)], P := S7_code_amended,
                   pc := 3, V := [], callStack := [], H := (xmalloc H 8).2 } :=
    dup_step S7_bc0_amended nft _ _ _ rfl rfl
  have e3 : step S7_bc0_amended nft
      { S := [ptr2val (H.top + 1), ptr2val (H.top + 1)], P := S7_code_amended,
        pc := 3, V := [], callStack := [], H := (xmalloc H 8).2 }
      = .running { S := [int2val 5, ptr2val (H.top + 1), ptr2val (H.top + 1)],
                   P := S7_code_amended, pc := 5, V := [], callStack := [],
                   H := (xmalloc H 8).2 } :=
    bipush_step S7_bc0_amended nft _ 5 rfl rfl
  have e4 : step S7_bc0_amended nft
      { S := [int2val 5, ptr2val (H.top + 1), ptr2val (H.top + 1)],
        P := S7_code_amended, pc := 5, V := [], callStack := [], H := (xmalloc H 8).2 }
      = .running { S := [ptr2val (H.top + 1), int2val 5, ptr2val (H.top + 1)],
                   P := S7_code_amended, pc := 6, V := [], callStack := [],
                   H := (xmalloc H 8).2 } :=
    swap_step S7_bc0_amended nft _ _ _ _ rfl rfl
  have hadd : size_add (H.top + 1) ((4 : Nat) : Int) = H.top + 5 := by
    rw [size_add_nat (H.top + 1) 4 (by omega)]
  have e5 : step S7_bc0_amended nft
      { S := [ptr2val (H.top + 1), int2val 5, ptr2val (H.top + 1)],
        P := S7_code_amended, pc := 6, V := [], callStack := [], H := (xmalloc H 8).2 }
      = .running { S := [ptr2val (H.top + 5), int2val 5, ptr2val (H.top + 1)],
                   P := S7_code_amended, pc := 8, V := [], callStack := [],
                   H := (xmalloc H 8).2 } := by
    have h := aaddf_step S7_bc0_amended nft
      { S := [ptr2val (H.top + 1), int2val 5, ptr2val (H.top + 1)],
        P := S7_code_amended, pc := 6, V := [], callStack := [], H := (xmalloc H 8).2 }
      4 (H.top + 1) _ rfl rfl rfl (by omega)
    rw [hadd] at h
    exact h
  have e6 : step S7_bc0_amended nft
      { S := [ptr2val (H.top + 5), int2val 5, ptr2val (H.top + 1)],
        P := S7_code_amended, pc := 8, V := [], callStack := [], H := (xmalloc H 8).2 }
      = .running { S := [int2val 5, ptr2val (H.top + 5), ptr2val (H.top + 1)],
                   P := S7_code_amended, pc := 9, V := [], callStack := [],
                   H := (xmalloc H 8).2 } :=
    swap_step S7_bc0_amended nft _ _ _ _ rfl rfl
  have e7 : step S7_bc0_amended nft
      { S := [int2val 5, ptr2val (H.top + 5), ptr2val (H.top + 1)],
        P := S7_code_amended, pc := 9, V := [], callStack := [], H := (xmalloc H 8).2 }
      = .running { S := [ptr2val (H.top + 1)], P := S7_code_amended, pc := 10, V := [],
                   callStack := [], H := store_int (xmalloc H 8).2 (H.top + 5) 5 } :=
    imstore_step S7_bc0_amended nft _ 5 (H.top + 5) _ rfl rfl (by omega)
  have e8 : step S7_bc0_amended nft
      { S := [ptr2val (H.top + 1)], P := S7_code_amended, pc := 10, V := [],
        callStack := [], H := store_int (xmalloc H 8).2 (H.top + 5) 5 }
      = .running { S := [ptr2val (H.top + 5)], P := S7_code_amended, pc := 12, V := [],
                   callStack := [], H := store_int (xmalloc H 8).2 (H.top + 5) 5 } := by
    have h := aaddf_step S7_bc0_amended nft
      { S := [ptr2val (H.top + 1)], P := S7_code_amended, pc := 10, V := [],
        callStack := [], H := store_int (xmalloc H 8).2 (H.top + 5) 5 }
      4 (H.top + 1) _ rfl rfl rfl (by omega)
    rw [hadd] at h
    exact h
  have hload : load_int (store_int (xmalloc H 8).2 (H.top + 5) 5) (H.top + 5) = 5 := by
    rw [load_int_store_int_same]
    decide
  have e9 : step S7_bc0_amended nft
      { S := [ptr2val (H.top + 5)], P := S7_code_amended, pc := 12, V := [],
        callStack := [], H := store_int (xmalloc H 8).2 (H.top + 5) 5 }
      = .running { S := [int2val 5], P := S7_code_amended, pc := 13, V := [],
                   callStack := [], H := store_int (xmalloc H 8).2 (H.top + 5) 5 } := by
    have h := imload_step S7_bc0_amended nft
      { S := [ptr2val (H.top + 5)], P := S7_code_amended, pc := 12, V := [],
        callStack := [], H := store_int (xmalloc H 8).2 (H.top + 5) 5 }
      (H.top + 5) _ rfl rfl (by omega)
    rw [hload] at h
    exact h
  have e10 : step S7_bc0_amended nft
      { S := [int2val 5], P := S7_code_amended, pc := 13, V := [],
        callStack := [], H := store_int (xmalloc H 8).2 (H.top + 5) 5 }
      = .returned 5 :=
    return_exit_step S7_bc0_amended nft _ (int2val 5) [] rfl rfl rfl
  rw [execute_eq_run S7_bc0_amended nft 10 H junk _ e0, run_step S7_bc0_amended nft _ _ 9 e1,
    run_step S7_bc0_amended nft _ _ 8 e2, run_step S7_bc0_amended nft _ _ 7 e3,
    run_step S7_bc0_amended nft _ _ 6 e4, run_step S7_bc0_amended nft _ _ 5 e5,
    run_step S7_bc0_amended nft _ _ 4 e6, run_step S7_bc0_amended nft _ _ 3 e7,
    run_step S7_bc0_amended nft _ _ 2 e8, run_step S7_bc0_amended nft _ _ 1 e9,
    run_stop S7_bc0_amended nft _ _ 0 e10 rfl]

theorem run_defined_terminal (bc0 : bc0_file) (nft : Nat → Option native_fn) (H0 : Heap)
    (n k : Nat) :
    ∀ s : State, (run_defined bc0 nft H0 n s).terminal = true →
      run_defined bc0 nft H0 (n + k) s = run_defined bc0 nft H0 n s := by
  induction n with
  | zero => intro s h; simp [run_defined, Outcome.terminal] at h
  | succ n ih =>
    intro s h
    have e : n + 1 + k = (n + k) + 1 := by omega
    rw [e]
    unfold run_defined at h ⊢
    cases hs : step_defined bc0 nft H0 s with
    | running s1 => rw [hs] at h; exact ih s1 h
    | returned v => rfl
    | aborted a t => rfl
    | image_error => rfl

theorem execute_defined_of_le (bc0 : bc0_file) (nft : Nat → Option native_fn) (H : Heap)
    (junk : Nat → c0_value) (n m : Nat) (hnm : n ≤ m)
    (h : (execute_defined bc0 nft n H junk).terminal = true) :
    execute_defined bc0 nft m H junk = execute_defined bc0 nft n H junk := by
  unfold execute_defined at h ⊢
  cases hi : init bc0 H junk with
  | none => rfl
  | some s0 =>
    rw [hi] at h
    obtain ⟨k, rfl⟩ := Nat.exists_eq_add_of_le hnm
    exact run_defined_terminal bc0 nft H n k s0 h

/-- A pass of `step_defined` is the pass of `step`, or it is undefined. -/
theorem step_defined_cases (bc0 : bc0_file) (nft : Nat → Option native_fn) (H0 : Heap)
    (s : State) :
    step_defined bc0 nft H0 s = step bc0 nft s ∨ step_defined bc0 nft H0 s = .image_error := by
  unfold step_defined
  split
  · split
    · exact Or.inl rfl
    · exact Or.inr rfl
  · exact Or.inl rfl

/-- The amended program of scenario S7 makes no access outside the block it
allocates: with `step_defined` it returns 5 as well. -/
theorem S7_amended_defined :
    (execute_defined S7_bc0_amended no_natives 10 used_heap zero_junk).exit_value = some 5 := by
  decide

/-- C14, as stated, fails.  The heap is one in which the addresses up to 4096
are in use, so the block of `NEW` starts at 4097.  In the program as the spec
writes it `NEW` takes the byte of `DUP` as its size operand; after five passes
the machine fetches `IMSTORE` at address 9 with the pointer `4101` on top of
the integer 5.  `IMSTORE` pops the value first and the address second: the
address it writes through is 5, not the interior pointer `4101`, and it lies in
no block of the program.  The write is undefined and the program never returns
5.  With the size given to `NEW` as an operand (`NEW 8`) the same happens at the
`IMSTORE` at address 10. -/
theorem C14_counterexample :
    ((execute_defined S7_bc0 no_natives 5 used_heap zero_junk).state.map
        (fun t => (t.pc, t.S, t.H.top))
      = some (9, [ptr2val 4101, int2val 5, int2val 8], 4185)) ∧
    ((execute S7_bc0 no_natives 5 used_heap zero_junk).state.map
        (fun t => (t.pc, t.S, t.H.top))
      = some (9, [ptr2val 4101, int2val 5, int2val 8], 4185)) ∧
    ubyte_at S7_code 9 = some opcode.IMSTORE.byte ∧
    ((execute_defined S7_bc0 no_natives 5 used_heap zero_junk).state.bind mem_access
      = some (5, 4)) ∧
    in_allocated used_heap { mem := fun _ => 0, top := 4185 } 5 4 = false ∧
    (execute_defined S7_bc0 no_natives 6 used_heap zero_junk).is_image_error = true ∧
    (∀ fuel, execute_defined S7_bc0 no_natives fuel used_heap zero_junk ≠ .returned 5) ∧
    ((execute_defined S7_bc0_new8 no_natives 6 used_heap zero_junk).state.map
        (fun t => (t.pc, t.S, t.H.top))
      = some (10, [ptr2val 4101, int2val 5, ptr2val 4097, int2val 8], 4104)) ∧
    ubyte_at S7_code_new8 10 = some opcode.IMSTORE.byte ∧
    ((execute_defined S7_bc0_new8 no_natives 6 used_heap zero_junk).state.bind mem_access
      = some (5, 4)) ∧
    (execute_defined S7_bc0_new8 no_natives 7 used_heap zero_junk).is_image_error = true ∧
    (∀ fuel, execute_defined S7_bc0_new8 no_natives fuel used_heap zero_junk ≠ .returned 5) := by
  refine ⟨by decide, by decide, by decide, by decide, by decide, by decide, ?_, by decide,
    by decide, by decide, by decide, ?_⟩
  · intro fuel
    by_cases hf : 6 ≤ fuel
    · have ht : (execute_defined S7_bc0 no_natives 6 used_heap zero_junk).terminal = true := by
        decide
      rw [execute_defined_of_le S7_bc0 no_natives used_heap zero_junk 6 fuel hf ht]
      intro h
      have h2 : (execute_defined S7_bc0 no_natives 6 used_heap zero_junk).exit_value
          = some 5 := by
        rw [h]; rfl
      revert h2
      decide
    · have hlt : fuel < 6 := by omega
      intro h
      have h2 : (execute_defined S7_bc0 no_natives fuel used_heap zero_junk).exit_value
          = some 5 := by
        rw [h]; rfl
      revert h2
      interval_cases fuel <;> decide
  · intro fuel
    by_cases hf : 7 ≤ fuel
    · have ht : (execute_defined S7_bc0_new8 no_natives 7 used_heap zero_junk).terminal
          = true := by
        decide
      rw [execute_defined_of_le S7_bc0_new8 no_natives used_heap zero_junk 7 fuel hf ht]
      intro h
      have h2 : (execute_defined S7_bc0_new8 no_natives 7 used_heap zero_junk).exit_value
          = some 5 := by
        rw [h]; rfl
      revert h2
      decide
    · have hlt : fuel < 7 := by omega
      intro h
      have h2 : (execute_defined S7_bc0_new8 no_natives fuel used_heap zero_junk).exit_value
          = some 5 := by
        rw [h]; rfl
      revert h2
      interval_cases fuel <;> decide

/-- C14 (amended): the program
`NEW 8; DUP; BIPUSH 5; SWAP; AADDF 4; SWAP; IMSTORE; AADDF 4; IMLOAD; RETURN`,
run as function 0, terminates normally with exit value 5, for every native
table, every contents of memory and every heap whose next block lies inside the
64-bit address space: 5 is stored through the interior pointer at offset 4 of a
fresh 8-byte block and loaded back through it. -/
theorem C14_S7_amended (nft : Nat → Option native_fn) (H : Heap) (junk : Nat → c0_value)
    (fuel : Nat) (hfit : H.top + 5 < 18446744073709551616) (hf : 10 ≤ fuel) :
    execute S7_bc0_amended nft fuel H junk = .returned 5 := by
  have e := S7_amended_exit nft H junk hfit
  rw [execute_of_le S7_bc0_amended nft H junk 10 fuel hf (by rw [e]; rfl), e]

/-- C14 (amended) on a store of `0xFF` bytes with 10 steps of fuel. -/
theorem C14_S7_amended_witness :
    dirty_heap.top + 5 < 18446744073709551616 ∧ 10 ≤ 10 ∧
    execute S7_bc0_amended no_natives 10 dirty_heap zero_junk = .returned 5 :=
  ⟨by decide, by decide,
   C14_S7_amended no_natives dirty_heap zero_junk 10 (by decide) (by decide)⟩

/-! ## C20: what a step leaves unchanged -/

/-- C20: when the opcode fetched is neither INVOKESTATIC nor RETURN and the step
does not stop the machine (it leads to a state `s1`), the call stack and the
code `P` are unchanged; the locals are unchanged unless the opcode is VSTORE,
and `VSTORE i` with `v` on top of the operand stack changes only `V[i]`, to `v`. -/
theorem C20_frame (bc0 : bc0_file) (nft : Nat → Option native_fn) (s s1 : State)
    (b : Nat) (op : opcode)
    (hb : ubyte_at s.P s.pc = some b) (hd : decode b = some op)
    (hne1 : op ≠ .INVOKESTATIC) (hne2 : op ≠ .RETURN)
    (hrun : step bc0 nft s = .running s1) :
    s1.callStack = s.callStack ∧ s1.P = s.P ∧
    (op ≠ .VSTORE → s1.V = s.V) ∧
    (op = .VSTORE → ∃ (i : Nat) (v : c0_value) (rest : List c0_value),
      ubyte_at s.P (s.pc + 1) = some i ∧ s.S = v :: rest ∧ i < s.V.length ∧
      s1.V = s.V.set i v ∧ s1.V.length = s.V.length ∧ s1.V[i]? = some v ∧
      ∀ j, j ≠ i → s1.V[j]? = s.V[j]?) := by
  have hstep : step bc0 nft s = exec bc0 nft b op s := by
    unfold step
    simp only [hb, hd]
  rw [hstep] at hrun
  cases op
  case INVOKESTATIC => exact absurd rfl hne1
  case RETURN => exact absurd rfl hne2
  case VSTORE =>
    simp only [exec] at hrun
    split at hrun
    · split at hrun
      · cases hrun
        rename_i i v S hi hS hlt
        refine ⟨rfl, rfl, fun h => absurd rfl h, fun _ => ⟨i, v, S, hi, hS, hlt, rfl, ?_, ?_, ?_⟩⟩
        · simp
        · simp [hlt]
        · intro j hj
          simp [List.getElem?_set, Ne.symm hj]
      · cases hrun
    · cases hrun
  all_goals
    simp only [exec, cond_branch] at hrun
    repeat' (split at hrun)
    all_goals first
      | (cases hrun; exact ⟨rfl, rfl, fun _ => rfl, fun h => by cases h⟩)
      | (cases hrun)

/-- C20 at `VSTORE 1` with 7 on top of the operand stack: local 1 becomes 7, the
other locals, the code and the call stack stay. -/
theorem C20_frame_witness :
    vstore_next.callStack = vstore_state.callStack ∧ vstore_next.P = vstore_state.P ∧
    (opcode.VSTORE ≠ .VSTORE → vstore_next.V = vstore_state.V) ∧
    (opcode.VSTORE = .VSTORE → ∃ (i : Nat) (v : c0_value) (rest : List c0_value),
      ubyte_at vstore_state.P (vstore_state.pc + 1) = some i ∧ vstore_state.S = v :: rest ∧
      i < vstore_state.V.length ∧
      vstore_next.V = vstore_state.V.set i v ∧
      vstore_next.V.length = vstore_state.V.length ∧ vstore_next.V[i]? = some v ∧
      ∀ j, j ≠ i → vstore_next.V[j]? = vstore_state.V[j]?) :=
  C20_frame empty_bc0 no_natives vstore_state vstore_next 0x36 .VSTORE
    (by decide) (by decide) (by decide) (by decide) (by rfl)

end C0VM
